import Mathlib

/-!
# string_views: a policy-configured, non-owning view over a character sequence

Shallow embedding of `include/string_views/string_views.hpp`.

* Storage is one flat array of characters; a pointer is an integer address,
  address `0` is the null pointer and cell `i` of the array lives at address
  `i + 1`.  Reading an address outside the array is undefined behaviour and is
  reported as `none`.
* Template parameters (character type, conversion, format, content and debug
  policy) are parameters of the Lean types, so that every policy combination
  is a distinct type, as in the header.
* What the header takes from the toolchain (integer widths, `NDEBUG`, the
  `_ITERATOR_DEBUG_LEVEL` / `_MSC_VER` macros) is collected in `build`.
* A constructor call results in `Except failure view`: a failure is either a
  compile-time rejection or the content policy signalling at run time.
-/

namespace string_views

/-! ## Toolchain and storage -/

/-- What the header reads from the toolchain and the build flags. -/
structure build where
  /-- Width in bits of `std::size_t`. -/
  size_bits : Nat
  /-- Width in bits of `unsigned long`, the return type of `detail::len`. -/
  unsigned_long_bits : Nat
  /-- Whether `NDEBUG` is defined where `<cassert>` is included. -/
  NDEBUG : Bool
  /-- Value of `_ITERATOR_DEBUG_LEVEL`, `none` when the macro is not defined. -/
  ITERATOR_DEBUG_LEVEL : Option Nat
  /-- Whether `_MSC_VER` is defined. -/
  MSC_VER : Bool
  deriving DecidableEq, Repr

/-- A `const character*`: an address, `0` being the null pointer. -/
abbrev pointer := Int

/-- The storage the views refer to: cell `i` is at address `i + 1`. -/
structure memory (character : Type) where
  cells : List character

/-- Dereference `*p`; `none` is an access outside the storage. -/
def memory.load {character : Type} (m : memory character) (p : pointer) : Option character :=
  if p ≤ 0 then none else m.cells[(p - 1).toNat]?

/-- Every address of the storage, one past the end included, is a `std::size_t` value. -/
def memory.addressable {character : Type} (b : build) (m : memory character) : Prop :=
  m.cells.length + 1 < 2 ^ b.size_bits

/-- Address `p` points into the storage or one past its end. -/
def memory.in_range {character : Type} (m : memory character) (p : pointer) : Prop :=
  1 ≤ p ∧ p ≤ m.cells.length + 1

instance {character : Type} (b : build) (m : memory character) : Decidable (m.addressable b) :=
  inferInstanceAs (Decidable (m.cells.length + 1 < 2 ^ b.size_bits))

instance {character : Type} (m : memory character) (p : pointer) : Decidable (m.in_range p) :=
  inferInstanceAs (Decidable (1 ≤ p ∧ p ≤ m.cells.length + 1))

/-- Conversion of an integer value to `std::size_t`. -/
def to_size_t (b : build) (x : Int) : Nat :=
  (x % 2 ^ b.size_bits).toNat

/-- Conversion of an integer value to `unsigned long`. -/
def to_unsigned_long (b : build) (x : Int) : Nat :=
  (x % 2 ^ b.unsigned_long_bits).toNat

/-! ## buff_view -/

/-- The class template `buff_view<character>`: pointer and length. -/
structure buff_view (character : Type) where
  m_data : pointer
  m_size : Nat
  deriving DecidableEq, Repr

/-- The member `buff_view::data`. -/
def buff_view.data {character : Type} (v : buff_view character) : pointer :=
  v.m_data

/-- The member `buff_view::size`. -/
def buff_view.size {character : Type} (v : buff_view character) : Nat :=
  v.m_size

/-- The member `buff_view::empty`. -/
def buff_view.empty {character : Type} (v : buff_view character) : Bool :=
  v.size == 0

/-! ## Content policies and checked_buff_view -/

/-- How a construction can end without a view. -/
inductive failure where
  /-- No constructor is viable for the argument (all were removed by `enable_if`). -/
  | no_matching_constructor
  /-- Overload resolution found no single best constructor. -/
  | ambiguous_call
  /-- Overload resolution selected a constructor defined as deleted. -/
  | deleted_constructor
  /-- A `static_assert` in the selected constructor failed. -/
  | static_assertion (message : String)
  /-- The body of the selected constructor does not compile for the argument type. -/
  | ill_formed_body
  /-- The content policy signalled a violation at run time. -/
  | content_violation
  /-- The constructor read outside the storage: undefined behaviour at run time. -/
  | undefined_behaviour
  deriving DecidableEq, Repr

/-- Whether the failure is a rejection by the compiler. -/
def failure.at_compile_time : failure → Bool
  | .content_violation => false
  | .undefined_behaviour => false
  | _ => true

/-- A content policy: a class with a static `check(begin, end)`; `false` is the
policy signalling a violation. -/
structure content_policy (character : Type) where
  check : memory character → pointer → pointer → Bool

/-- The class template `default_content_policy<character>`: `check` ignores both arguments. -/
def default_content_policy (character : Type) : content_policy character :=
  ⟨fun _ _ _ => true⟩

/-- The class template `checked_buff_view<character, content_policy>`. -/
structure checked_buff_view (character : Type) (cp : content_policy character)
    extends buff_view character

/-- The constructor `checked_buff_view(begin_, size_)`: initialise the base,
then run `content_policy::check(data(), data() + size())`. -/
def checked_buff_view.ctor {character : Type} (cp : content_policy character)
    (m : memory character) (begin_ : pointer) (size_ : Nat) :
    Except failure (checked_buff_view character cp) :=
  let base : buff_view character := ⟨begin_, size_⟩
  if cp.check m base.data (base.data + base.size) then .ok ⟨base⟩
  else .error .content_violation

/-! ## detail::len -/

/-- The recursion of `detail::len` over the cells that start at `str`:
`*str ? 1u + len(++str) : 0u`, the sum taken in `unsigned long`. -/
def detail.len_cells {character : Type} [Zero character] [DecidableEq character]
    (b : build) : List character → Option Nat
  | [] => none
  | c :: rest =>
    if c ≠ 0 then
      (detail.len_cells b rest).map (fun (n : Nat) => to_unsigned_long b (1 + (n : Int)))
    else some 0

/-- The function `detail::len(str)`. -/
def detail.len {character : Type} [Zero character] [DecidableEq character]
    (b : build) (m : memory character) (str : pointer) : Option Nat :=
  if str ≤ 0 then none else detail.len_cells b (m.cells.drop (str - 1).toNat)

/-! ## Policies -/

/-- The enumeration `conversion_policy`. -/
inductive conversion_policy where
  | implicit_
  | explicit_
  deriving DecidableEq, Repr

/-- The enumeration `format_policy`. -/
inductive format_policy where
  | zero_terminated
  | not_zero_terminated
  deriving DecidableEq, Repr

/-- The two values of the enumeration `debug_policy`. -/
inductive debug_policy where
  | unchecked
  | checked
  deriving DecidableEq, Repr

/-- The preprocessor condition
`defined(_ITERATOR_DEBUG_LEVEL) && _ITERATOR_DEBUG_LEVEL >= 1 && defined(_MSC_VER)`. -/
def checked_iterators_advertised (b : build) : Bool :=
  match b.ITERATOR_DEBUG_LEVEL with
  | some level => decide (1 ≤ level) && b.MSC_VER
  | none => false

/-- The enumerator `debug_policy::global`, an alias of `checked` or of `unchecked`. -/
def debug_policy.global (b : build) : debug_policy :=
  if checked_iterators_advertised b then .checked else .unchecked

/-! ## basic_string_views -/

/-- The class template
`basic_string_views<character, explicit_constructor_from_charp, format, content_policy, debug>`. -/
structure basic_string_views (character : Type)
    (explicit_constructor_from_charp : conversion_policy) (format : format_policy)
    (cp : content_policy character) (debug : debug_policy)
    extends checked_buff_view character cp

/-- The member `data`, brought in from `buff_view`. -/
def basic_string_views.data {character : Type} {p : conversion_policy} {format : format_policy}
    {cp : content_policy character} {debug : debug_policy}
    (v : basic_string_views character p format cp debug) : pointer :=
  v.tobuff_view.data

/-- The member `size`, brought in from `buff_view`. -/
def basic_string_views.size {character : Type} {p : conversion_policy} {format : format_policy}
    {cp : content_policy character} {debug : debug_policy}
    (v : basic_string_views character p format cp debug) : Nat :=
  v.tobuff_view.size

/-- The member `empty`, brought in from `buff_view`. -/
def basic_string_views.empty {character : Type} {p : conversion_policy} {format : format_policy}
    {cp : content_policy character} {debug : debug_policy}
    (v : basic_string_views character p format cp debug) : Bool :=
  v.tobuff_view.empty

/-- Wrap the result of the base-class constructor into the derived class. -/
def basic_string_views.of_base {character : Type} (p : conversion_policy)
    (format : format_policy) {cp : content_policy character} (debug : debug_policy)
    (r : Except failure (checked_buff_view character cp)) :
    Except failure (basic_string_views character p format cp debug) :=
  match r with
  | .ok base => .ok ⟨base⟩
  | .error e => .error e

/-- The body shared by the two constructors from `const value_type* data_`
(the `explicit` one and the converting one):
`checked_buff_view(data_, detail::len(data_))`. -/
def basic_string_views.from_charp {character : Type} [Zero character] [DecidableEq character]
    (p : conversion_policy) (format : format_policy) (cp : content_policy character)
    (debug : debug_policy) (b : build) (m : memory character) (data_ : pointer) :
    Except failure (basic_string_views character p format cp debug) :=
  match detail.len b m data_ with
  | none => .error .undefined_behaviour
  | some n => basic_string_views.of_base p format debug (checked_buff_view.ctor cp m data_ (to_size_t b n))

/-- The constructor from `(const value_type* begin, const value_type* end)`:
`checked_buff_view(begin, end - begin)`, the difference converted to `std::size_t`. -/
def basic_string_views.from_begin_end {character : Type}
    (p : conversion_policy) (format : format_policy) (cp : content_policy character)
    (debug : debug_policy) (b : build) (m : memory character) (begin_ end_ : pointer) :
    Except failure (basic_string_views character p format cp debug) :=
  basic_string_views.of_base p format debug (checked_buff_view.ctor cp m begin_ (to_size_t b (end_ - begin_)))

/-- The constructor from `(const value_type* begin, size_type size_)`:
`checked_buff_view(begin, size_)`. -/
def basic_string_views.from_begin_size {character : Type}
    (p : conversion_policy) (format : format_policy) (cp : content_policy character)
    (debug : debug_policy) (m : memory character) (begin_ : pointer) (size_ : Nat) :
    Except failure (basic_string_views character p format cp debug) :=
  basic_string_views.of_base p format debug (checked_buff_view.ctor cp m begin_ size_)

/-- The body shared by the two constructors from another configured view
`basic_string_views<character, p, f, content_policy, d> sv`:
`checked_buff_view(sv.data(), sv.size())` under
`static_assert(f == format_policy::zero_terminated || f == format, ...)`. -/
def basic_string_views.from_view {character : Type}
    (p : conversion_policy) (format : format_policy) (cp : content_policy character)
    (debug : debug_policy) (m : memory character)
    {p2 : conversion_policy} {f : format_policy} {d : debug_policy}
    (sv : basic_string_views character p2 f cp d) :
    Except failure (basic_string_views character p format cp debug) :=
  if f = .zero_terminated ∨ f = format then
    basic_string_views.of_base p format debug (checked_buff_view.ctor cp m sv.data sv.size)
  else .error (.static_assertion "not compatible format policy")

/-- An object of a class that exposes `c_str()` and `size()`, seen through the
results of the two calls. -/
structure string_object where
  c_str : pointer
  size : Nat
  deriving DecidableEq, Repr

/-- The body shared by the two constructors from `const string& s`:
`checked_buff_view(s.c_str(), s.size())`. -/
def basic_string_views.from_string {character : Type}
    (p : conversion_policy) (format : format_policy) (cp : content_policy character)
    (debug : debug_policy) (m : memory character) (s : string_object) :
    Except failure (basic_string_views character p format cp debug) :=
  basic_string_views.of_base p format debug (checked_buff_view.ctor cp m s.c_str s.size)

/-- The implicitly declared copy constructor: a member-wise copy, without a
content check.  Overload resolution selects it only when the tags of the source
are those of the target. -/
def basic_string_views.copy {character : Type}
    {p : conversion_policy} {format : format_policy} {cp : content_policy character}
    {debug : debug_policy} {p2 : conversion_policy} {f : format_policy} {d : debug_policy}
    (sv : basic_string_views character p2 f cp d) :
    basic_string_views character p format cp debug :=
  ⟨⟨⟨sv.data, sv.size⟩⟩⟩

/-! ## The constructor declarations and overload resolution -/

/-- The constructors of `basic_string_views`, in the order of their declaration. -/
inductive ctor where
  /-- `explicit basic_string_views(const value_type* data_)`, enabled for `explicit_`. -/
  | charp_explicit
  /-- `basic_string_views(std::nullptr_t) = delete`. -/
  | from_nullptr
  /-- `basic_string_views(const value_type* data_)`, enabled for `implicit_`. -/
  | charp_implicit
  /-- `basic_string_views(const value_type* begin, const value_type* end)`. -/
  | begin_end
  /-- `basic_string_views(const value_type* begin, size_type size_)`. -/
  | begin_size
  /-- `explicit basic_string_views(basic_string_views<character, p, f, content_policy, d> sv)`,
  enabled for `explicit_`. -/
  | view_explicit
  /-- `basic_string_views(basic_string_views<character, p, f, content_policy, d> sv)`,
  enabled for `implicit_`. -/
  | view_implicit
  /-- `explicit basic_string_views(const string& s)`, enabled for `explicit_`. -/
  | string_explicit
  /-- `basic_string_views(const string& s)`, enabled for `implicit_`. -/
  | string_implicit
  /-- The implicitly declared copy constructor. -/
  | copy
  deriving DecidableEq, Repr

/-- All constructor declarations. -/
def ctor.all : List ctor :=
  [.charp_explicit, .from_nullptr, .charp_implicit, .begin_end, .begin_size,
   .view_explicit, .view_implicit, .string_explicit, .string_implicit, .copy]

/-- The `std::enable_if` condition of a declaration, for the class's conversion
policy `p` (`_Dummy` is `void` and a deduced `string` is never `void`). -/
def ctor.enabled (p : conversion_policy) : ctor → Bool
  | .charp_explicit => p == .explicit_
  | .from_nullptr => true
  | .charp_implicit => p == .implicit_
  | .begin_end => true
  | .begin_size => true
  | .view_explicit => p == .explicit_
  | .view_implicit => p == .implicit_
  | .string_explicit => p == .explicit_
  | .string_implicit => p == .implicit_
  | .copy => true

/-- Whether the declaration carries the `explicit` specifier. -/
def ctor.is_explicit : ctor → Bool
  | .charp_explicit => true
  | .view_explicit => true
  | .string_explicit => true
  | _ => false

/-- Whether the declaration is defined as deleted. -/
def ctor.is_deleted : ctor → Bool
  | .from_nullptr => true
  | _ => false

/-- Tie-break between candidates of equal conversion rank: a non-template (0)
is preferred to a template, and a template whose parameter is a concrete
pointer or view type (1) is more specialised than `const string&` (2). -/
def ctor.tie_break : ctor → Nat
  | .from_nullptr => 0
  | .begin_end => 0
  | .begin_size => 0
  | .copy => 0
  | .charp_explicit => 1
  | .charp_implicit => 1
  | .view_explicit => 1
  | .view_implicit => 1
  | .string_explicit => 2
  | .string_implicit => 2

/-- The argument list of a construction. -/
inductive argument (character : Type) (cp : content_policy character) where
  /-- The literal `nullptr`. -/
  | null_literal
  /-- A `const character*`. -/
  | char_pointer (data_ : pointer)
  /-- Two `const character*`. -/
  | pointer_pair (begin_ end_ : pointer)
  /-- A `const character*` and a `std::size_t`. -/
  | pointer_and_size (begin_ : pointer) (size_ : Nat)
  /-- A `basic_string_views<character, p, f, content_policy, d>`. -/
  | view {p : conversion_policy} {f : format_policy} {d : debug_policy}
      (sv : basic_string_views character p f cp d)
  /-- An object of another class that has `c_str()` and `size()`. -/
  | string_like (s : string_object)
  /-- An object of another class that lacks `c_str()` or `size()`. -/
  | other_object

/-- Rank of the conversion from the argument list to the parameters of a
declaration of the class with tags `p`, `format`, `debug`: `some 0` is an exact
match, `some 1` a conversion, `none` means the declaration is not viable. -/
def ctor.rank {character : Type} {cp : content_policy character}
    (p : conversion_policy) (format : format_policy) (debug : debug_policy) :
    ctor → argument character cp → Option Nat
  | .charp_explicit, .char_pointer _ => some 0
  | .charp_implicit, .char_pointer _ => some 0
  | .charp_explicit, .null_literal => some 1
  | .charp_implicit, .null_literal => some 1
  | .from_nullptr, .null_literal => some 0
  | .begin_end, .pointer_pair _ _ => some 0
  | .begin_size, .pointer_and_size _ _ => some 0
  | .view_explicit, @argument.view _ _ p2 f d _ =>
    if p2 = p ∧ f = format ∧ d = debug then none else some 0
  | .view_implicit, @argument.view _ _ p2 f d _ =>
    if p2 = p ∧ f = format ∧ d = debug then none else some 0
  | .copy, @argument.view _ _ p2 f d _ =>
    if p2 = p ∧ f = format ∧ d = debug then some 0 else none
  | .string_explicit, .pointer_pair _ _ => none
  | .string_implicit, .pointer_pair _ _ => none
  | .string_explicit, .pointer_and_size _ _ => none
  | .string_implicit, .pointer_and_size _ _ => none
  | .string_explicit, _ => some 0
  | .string_implicit, _ => some 0
  | _, _ => none

/-- The two forms of initialisation: `T v(a)` and `T v = a`. -/
inductive initialization where
  | direct
  | copy
  deriving DecidableEq, Repr

/-- The viable candidates with their conversion rank: a declaration takes part
when its `enable_if` holds, when it is not `explicit` in a copy-initialisation,
and when the arguments convert to its parameters. -/
def candidates {character : Type} {cp : content_policy character} (init : initialization)
    (p : conversion_policy) (format : format_policy) (debug : debug_policy)
    (a : argument character cp) : List (ctor × Nat) :=
  ctor.all.filterMap fun c =>
    if c.enabled p && (init == .direct || !c.is_explicit) then
      (c.rank p format debug a).map fun r => (c, r)
    else none

/-- Candidate `x` is a better match than candidate `y`. -/
def better (x y : ctor × Nat) : Bool :=
  decide (x.2 < y.2) || (x.2 == y.2 && decide (x.1.tie_break < y.1.tie_break))

/-- Overload resolution: the candidate that is better than every other one. -/
def resolve {character : Type} {cp : content_policy character} (init : initialization)
    (p : conversion_policy) (format : format_policy) (debug : debug_policy)
    (a : argument character cp) : Except failure ctor :=
  let cs := candidates init p format debug a
  match cs with
  | [] => .error .no_matching_constructor
  | _ =>
    match cs.filter fun x => cs.all fun y => x.1 == y.1 || better x y with
    | [x] => .ok x.1
    | _ => .error .ambiguous_call

/-- The effect of the selected constructor on the argument list.  The body of
the `const string&` constructors calls `s.c_str()` and `s.size()`: it compiles
for a string-like object and for a view that has `c_str()` (zero-terminated
format) and is ill-formed for the other argument types. -/
def ctor.run {character : Type} [Zero character] [DecidableEq character]
    (p : conversion_policy) (format : format_policy) (cp : content_policy character)
    (debug : debug_policy) (b : build) (m : memory character) :
    ctor → argument character cp →
      Except failure (basic_string_views character p format cp debug)
  | .from_nullptr, _ => .error .deleted_constructor
  | .charp_explicit, .char_pointer data_ =>
    basic_string_views.from_charp p format cp debug b m data_
  | .charp_implicit, .char_pointer data_ =>
    basic_string_views.from_charp p format cp debug b m data_
  | .charp_explicit, .null_literal => basic_string_views.from_charp p format cp debug b m 0
  | .charp_implicit, .null_literal => basic_string_views.from_charp p format cp debug b m 0
  | .begin_end, .pointer_pair begin_ end_ =>
    basic_string_views.from_begin_end p format cp debug b m begin_ end_
  | .begin_size, .pointer_and_size begin_ size_ =>
    basic_string_views.from_begin_size p format cp debug m begin_ size_
  | .view_explicit, .view sv => basic_string_views.from_view p format cp debug m sv
  | .view_implicit, .view sv => basic_string_views.from_view p format cp debug m sv
  | .copy, .view sv => .ok sv.copy
  | .string_explicit, .string_like s => basic_string_views.from_string p format cp debug m s
  | .string_implicit, .string_like s => basic_string_views.from_string p format cp debug m s
  | .string_explicit, @argument.view _ _ _ f _ sv =>
    if f = .zero_terminated then
      basic_string_views.from_string p format cp debug m ⟨sv.data, sv.size⟩
    else .error .ill_formed_body
  | .string_implicit, @argument.view _ _ _ f _ sv =>
    if f = .zero_terminated then
      basic_string_views.from_string p format cp debug m ⟨sv.data, sv.size⟩
    else .error .ill_formed_body
  | .string_explicit, _ => .error .ill_formed_body
  | .string_implicit, _ => .error .ill_formed_body
  | _, _ => .error .no_matching_constructor

/-- A construction `basic_string_views<character, p, format, cp, debug>` from an
argument list: overload resolution, then the selected constructor. -/
def construct {character : Type} [Zero character] [DecidableEq character]
    (init : initialization) (p : conversion_policy) (format : format_policy)
    (cp : content_policy character) (debug : debug_policy) (b : build)
    (m : memory character) (a : argument character cp) :
    Except failure (basic_string_views character p format cp debug) :=
  match resolve init p format debug a with
  | .error e => .error e
  | .ok c => c.run p format cp debug b m a

/-- Whether a construction is accepted by the compiler: it yields a view or
fails only at run time. -/
def compiles {α : Type} (r : Except failure α) : Bool :=
  match r with
  | .ok _ => true
  | .error e => !e.at_compile_time

/-! ## Accessors -/

/-- The result of an element access. -/
inductive access (character : Type) where
  /-- The access returned (a reference to) this element. -/
  | value (c : character)
  /-- An `assert` of the accessor failed. -/
  | assertion_failure
  /-- The accessor read outside the storage. -/
  | undefined_behaviour
  deriving DecidableEq, Repr

/-- Whether `assert(condition)` of `<cassert>` fails: the macro expands to
nothing when `NDEBUG` is defined. -/
def assert_triggers (b : build) (condition : Bool) : Bool :=
  !b.NDEBUG && !condition

/-- The expression `*p` as the result of an accessor. -/
def memory.deref {character : Type} (m : memory character) (p : pointer) : access character :=
  match m.load p with
  | some c => .value c
  | none => .undefined_behaviour

/-- The member `front`:
`assert(debug == debug_policy::unchecked || !(this->empty() && "out of bound access"));`
`return *(this->data());` (the string literal converts to `true`). -/
def basic_string_views.front {character : Type} {p : conversion_policy}
    {format : format_policy} {cp : content_policy character} {debug : debug_policy}
    (b : build) (m : memory character) (v : basic_string_views character p format cp debug) :
    access character :=
  if assert_triggers b (debug == .unchecked || !(v.empty && true)) then .assertion_failure
  else m.deref v.data

/-- The member `back`:
`assert(debug == debug_policy::unchecked || !(this->empty() && "out of bound access"));`
`return *(this->data() + this->size() - 1);`. -/
def basic_string_views.back {character : Type} {p : conversion_policy}
    {format : format_policy} {cp : content_policy character} {debug : debug_policy}
    (b : build) (m : memory character) (v : basic_string_views character p format cp debug) :
    access character :=
  if assert_triggers b (debug == .unchecked || !(v.empty && true)) then .assertion_failure
  else m.deref (v.data + v.size - 1)

/-- The member `operator[]`:
`assert(debug == debug_policy::unchecked || (s < this->size() && "out of bound access"));`
`return this->data()[s];`. -/
def basic_string_views.operator_subscript {character : Type} {p : conversion_policy}
    {format : format_policy} {cp : content_policy character} {debug : debug_policy}
    (b : build) (m : memory character) (v : basic_string_views character p format cp debug)
    (s : Nat) : access character :=
  if assert_triggers b (debug == .unchecked || (decide (s < v.size) && true)) then
    .assertion_failure
  else m.deref (v.data + s)

/-! ## Members brought in by using-declarations, c_str and substring -/

/-- The member `data` of `checked_buff_view` (`using buff_view<character>::data`). -/
def checked_buff_view.data {character : Type} {cp : content_policy character}
    (v : checked_buff_view character cp) : pointer :=
  v.tobuff_view.data

/-- The member `size` of `checked_buff_view` (`using buff_view<character>::size`). -/
def checked_buff_view.size {character : Type} {cp : content_policy character}
    (v : checked_buff_view character cp) : Nat :=
  v.tobuff_view.size

/-- The member `empty` of `checked_buff_view` (`using buff_view<character>::empty`). -/
def checked_buff_view.empty {character : Type} {cp : content_policy character}
    (v : checked_buff_view character cp) : Bool :=
  v.tobuff_view.empty

/-- The member `c_str`, a template enabled by
`format == format_policy::zero_terminated`: `return this->data();`.
`none` is the member being removed by `enable_if`: a call does not compile. -/
def basic_string_views.c_str {character : Type} {p : conversion_policy}
    {format : format_policy} {cp : content_policy character} {debug : debug_policy}
    (v : basic_string_views character p format cp debug) : Option pointer :=
  if format = .zero_terminated then some v.data else none

/-- The non-const member `substring`:
`return basic_string_views(this->data(), this->data() + this->size());`.
The first component is the object after the call (the body assigns no member),
the second the view returned. -/
def basic_string_views.substring {character : Type} [Zero character] [DecidableEq character]
    {p : conversion_policy} {format : format_policy} {cp : content_policy character}
    {debug : debug_policy} (b : build) (m : memory character)
    (v : basic_string_views character p format cp debug) :
    basic_string_views character p format cp debug ×
      Except failure (basic_string_views character p format cp debug) :=
  (v, construct .direct p format cp debug b m (.pointer_pair v.data (v.data + v.size)))

/-! ## Iterators -/

/-- What `detail::make_iterator` returns: the pointer type `I` itself, or the
toolchain's `stdext::checked_array_iterator<I>` over `size` elements from `it`,
positioned at `index`. -/
inductive iterator where
  | raw (it : pointer)
  | checked_array (it : pointer) (size : Nat) (index : Nat)
  deriving DecidableEq, Repr

/-- Modelled from the spec: `stdext::make_checked_array_iterator(it, size, offset)`,
the checked-iteration facility of the toolchain, which is not part of the
header: an iterator that knows the bounds of the buffer it originates from. -/
def stdext.make_checked_array_iterator (it : pointer) (size offset : Nat) : iterator :=
  .checked_array it size offset

/-- Modelled from the spec: dereference of the toolchain's checked iterator,
"every dereference/advance is validated against the originating buffer's
bounds; violation produces a diagnostic". -/
def stdext.checked_dereference {character : Type} (m : memory character)
    (it : pointer) (size index : Nat) : access character :=
  if index < size then m.deref (it + index) else .assertion_failure

/-- Modelled from the spec: increment of the toolchain's checked iterator,
validated against the bounds; `none` is the diagnostic. -/
def stdext.checked_increment (it : pointer) (size index : Nat) : Option iterator :=
  if index < size then some (.checked_array it size (index + 1)) else none

/-- The three overloads of `detail::make_iterator`, selected by the tag
`iterator_type<p>`: for `checked_debug` the preprocessor chooses between
`stdext::make_checked_array_iterator(it, size, offset)` and `it + offset`; for
`unchecked_debug` it is `it + offset`. -/
def detail.make_iterator (b : build) (tag : debug_policy) (it : pointer) (size offset : Nat) :
    iterator :=
  match tag with
  | .checked =>
    if checked_iterators_advertised b then stdext.make_checked_array_iterator it size offset
    else .raw (it + offset)
  | .unchecked => .raw (it + offset)

/-- The expression `*i` on an iterator; `.assertion_failure` is the diagnostic
of a checked iterator. -/
def iterator.dereference {character : Type} (m : memory character) : iterator → access character
  | .raw it => m.deref it
  | .checked_array it size index => stdext.checked_dereference m it size index

/-- The expression `++i` on an iterator; `none` is the diagnostic of a checked
iterator. -/
def iterator.increment : iterator → Option iterator
  | .raw it => some (.raw (it + 1))
  | .checked_array it size index => stdext.checked_increment it size index

/-- The expression `i - j` on two iterators of the same type over the same
buffer; `none` for operands that do not belong together. -/
def iterator.difference : iterator → iterator → Option Int
  | .raw x, .raw y => some (x - y)
  | .checked_array x n i, .checked_array y k j =>
    if x = y ∧ n = k then some ((i : Int) - (j : Int)) else none
  | _, _ => none

/-- The member `begin`:
`detail::make_iterator(detail::iterator_type<debug>{}, data(), size())`. -/
def basic_string_views.begin {character : Type} {p : conversion_policy}
    {format : format_policy} {cp : content_policy character} {debug : debug_policy}
    (b : build) (v : basic_string_views character p format cp debug) : iterator :=
  detail.make_iterator b debug v.data v.size 0

/-- The member `end`:
`detail::make_iterator(detail::iterator_type<debug>{}, data(), size(), size())`. -/
def basic_string_views.end_ {character : Type} {p : conversion_policy}
    {format : format_policy} {cp : content_policy character} {debug : debug_policy}
    (b : build) (v : basic_string_views character p format cp debug) : iterator :=
  detail.make_iterator b debug v.data v.size v.size

/-- The member `cbegin`:
`detail::make_iterator(detail::iterator_type<debug>{}, data(), size())`. -/
def basic_string_views.cbegin {character : Type} {p : conversion_policy}
    {format : format_policy} {cp : content_policy character} {debug : debug_policy}
    (b : build) (v : basic_string_views character p format cp debug) : iterator :=
  detail.make_iterator b debug v.data v.size 0

/-- The member `cend`:
`detail::make_iterator(detail::iterator_type<debug>{}, data(), size(), size())`. -/
def basic_string_views.cend {character : Type} {p : conversion_policy}
    {format : format_policy} {cp : content_policy character} {debug : debug_policy}
    (b : build) (v : basic_string_views character p format cp debug) : iterator :=
  detail.make_iterator b debug v.data v.size v.size

/-! ## Construction with a record of the content checks -/

/-- The calls `content_policy::check(begin, end)` made so far, in order. -/
abbrev check_log := List (pointer × pointer)

/-- The constructor `checked_buff_view(begin_, size_)` together with the calls
of `content_policy::check` it makes. -/
def checked_buff_view.ctor_logged {character : Type} (cp : content_policy character)
    (m : memory character) (begin_ : pointer) (size_ : Nat) :
    check_log × Except failure (checked_buff_view character cp) :=
  let base : buff_view character := ⟨begin_, size_⟩
  ([(base.data, base.data + base.size)],
    if cp.check m base.data (base.data + base.size) then .ok ⟨base⟩
    else .error .content_violation)

/-- Wrap the logged result of the base-class constructor into the derived class. -/
def basic_string_views.of_base_logged {character : Type} (p : conversion_policy)
    (format : format_policy) {cp : content_policy character} (debug : debug_policy)
    (r : check_log × Except failure (checked_buff_view character cp)) :
    check_log × Except failure (basic_string_views character p format cp debug) :=
  (r.1, basic_string_views.of_base p format debug r.2)

/-- The constructors from `const value_type* data_` with the check calls. -/
def basic_string_views.from_charp_logged {character : Type} [Zero character]
    [DecidableEq character] (p : conversion_policy) (format : format_policy)
    (cp : content_policy character) (debug : debug_policy) (b : build) (m : memory character)
    (data_ : pointer) :
    check_log × Except failure (basic_string_views character p format cp debug) :=
  match detail.len b m data_ with
  | none => ([], .error .undefined_behaviour)
  | some n =>
    basic_string_views.of_base_logged p format debug
      (checked_buff_view.ctor_logged cp m data_ (to_size_t b n))

/-- The constructor from `(begin, end)` with the check calls. -/
def basic_string_views.from_begin_end_logged {character : Type}
    (p : conversion_policy) (format : format_policy) (cp : content_policy character)
    (debug : debug_policy) (b : build) (m : memory character) (begin_ end_ : pointer) :
    check_log × Except failure (basic_string_views character p format cp debug) :=
  basic_string_views.of_base_logged p format debug
    (checked_buff_view.ctor_logged cp m begin_ (to_size_t b (end_ - begin_)))

/-- The constructor from `(begin, size_)` with the check calls. -/
def basic_string_views.from_begin_size_logged {character : Type}
    (p : conversion_policy) (format : format_policy) (cp : content_policy character)
    (debug : debug_policy) (m : memory character) (begin_ : pointer) (size_ : Nat) :
    check_log × Except failure (basic_string_views character p format cp debug) :=
  basic_string_views.of_base_logged p format debug
    (checked_buff_view.ctor_logged cp m begin_ size_)

/-- The constructors from another configured view with the check calls. -/
def basic_string_views.from_view_logged {character : Type}
    (p : conversion_policy) (format : format_policy) (cp : content_policy character)
    (debug : debug_policy) (m : memory character)
    {p2 : conversion_policy} {f : format_policy} {d : debug_policy}
    (sv : basic_string_views character p2 f cp d) :
    check_log × Except failure (basic_string_views character p format cp debug) :=
  if f = .zero_terminated ∨ f = format then
    basic_string_views.of_base_logged p format debug
      (checked_buff_view.ctor_logged cp m sv.data sv.size)
  else ([], .error (.static_assertion "not compatible format policy"))

/-- The constructors from `const string& s` with the check calls. -/
def basic_string_views.from_string_logged {character : Type}
    (p : conversion_policy) (format : format_policy) (cp : content_policy character)
    (debug : debug_policy) (m : memory character) (s : string_object) :
    check_log × Except failure (basic_string_views character p format cp debug) :=
  basic_string_views.of_base_logged p format debug
    (checked_buff_view.ctor_logged cp m s.c_str s.size)

/-- The effect of the selected constructor with the check calls it makes; the
cases are those of `ctor.run`. -/
def ctor.run_logged {character : Type} [Zero character] [DecidableEq character]
    (p : conversion_policy) (format : format_policy) (cp : content_policy character)
    (debug : debug_policy) (b : build) (m : memory character) :
    ctor → argument character cp →
      check_log × Except failure (basic_string_views character p format cp debug)
  | .from_nullptr, _ => ([], .error .deleted_constructor)
  | .charp_explicit, .char_pointer data_ =>
    basic_string_views.from_charp_logged p format cp debug b m data_
  | .charp_implicit, .char_pointer data_ =>
    basic_string_views.from_charp_logged p format cp debug b m data_
  | .charp_explicit, .null_literal =>
    basic_string_views.from_charp_logged p format cp debug b m 0
  | .charp_implicit, .null_literal =>
    basic_string_views.from_charp_logged p format cp debug b m 0
  | .begin_end, .pointer_pair begin_ end_ =>
    basic_string_views.from_begin_end_logged p format cp debug b m begin_ end_
  | .begin_size, .pointer_and_size begin_ size_ =>
    basic_string_views.from_begin_size_logged p format cp debug m begin_ size_
  | .view_explicit, .view sv => basic_string_views.from_view_logged p format cp debug m sv
  | .view_implicit, .view sv => basic_string_views.from_view_logged p format cp debug m sv
  | .copy, .view sv => ([], .ok sv.copy)
  | .string_explicit, .string_like s =>
    basic_string_views.from_string_logged p format cp debug m s
  | .string_implicit, .string_like s =>
    basic_string_views.from_string_logged p format cp debug m s
  | .string_explicit, @argument.view _ _ _ f _ sv =>
    if f = .zero_terminated then
      basic_string_views.from_string_logged p format cp debug m ⟨sv.data, sv.size⟩
    else ([], .error .ill_formed_body)
  | .string_implicit, @argument.view _ _ _ f _ sv =>
    if f = .zero_terminated then
      basic_string_views.from_string_logged p format cp debug m ⟨sv.data, sv.size⟩
    else ([], .error .ill_formed_body)
  | .string_explicit, _ => ([], .error .ill_formed_body)
  | .string_implicit, _ => ([], .error .ill_formed_body)
  | _, _ => ([], .error .no_matching_constructor)

/-- A construction with the check calls it makes: overload resolution, then
the selected constructor. -/
def construct_logged {character : Type} [Zero character] [DecidableEq character]
    (init : initialization) (p : conversion_policy) (format : format_policy)
    (cp : content_policy character) (debug : debug_policy) (b : build)
    (m : memory character) (a : argument character cp) :
    check_log × Except failure (basic_string_views character p format cp debug) :=
  match resolve init p format debug a with
  | .error e => ([], .error e)
  | .ok c => c.run_logged p format cp debug b m a

/-- The check was called exactly once, on the range `[data(), data() + size())`
of the view being built, and the construction completed exactly when the call
passed. -/
def checked_once {character : Type} {p : conversion_policy} {format : format_policy}
    (cp : content_policy character) {debug : debug_policy} (m : memory character)
    (x : check_log × Except failure (basic_string_views character p format cp debug)) : Prop :=
  ∃ begin_ end_, x.1 = [(begin_, end_)] ∧
    ((cp.check m begin_ end_ = true ∧
        ∃ v, x.2 = .ok v ∧ v.data = begin_ ∧ v.data + v.size = end_) ∨
      (cp.check m begin_ end_ = false ∧ x.2 = .error .content_violation))

/-- The pointer an argument list supplies for the view to refer to. -/
def argument.supplied_pointer {character : Type} {cp : content_policy character} :
    argument character cp → Option pointer
  | .null_literal => none
  | .char_pointer data_ => some data_
  | .pointer_pair begin_ _ => some begin_
  | .pointer_and_size begin_ _ => some begin_
  | .view sv => some sv.data
  | .string_like s => some s.c_str
  | .other_object => none

/-! ## Builds and buffers used in the examples -/

/-- An LP64 build (64-bit `unsigned long`), assertions active, no checked iterators. -/
def lp64 : build :=
  ⟨64, 64, false, none, false⟩

/-- An LLP64 build as produced by MSVC for x64: 64-bit `std::size_t`, 32-bit `unsigned long`. -/
def llp64 : build :=
  ⟨64, 32, false, some 2, true⟩

/-- The LP64 build with `NDEBUG` defined. -/
def lp64_ndebug : build :=
  ⟨64, 64, true, none, false⟩

/-- The buffer `"hello"` with its terminator. -/
def hello : memory Nat :=
  ⟨[104, 101, 108, 108, 111, 0]⟩

/-- The buffer `"hello world"` with its terminator. -/
def hello_world : memory Nat :=
  ⟨[104, 101, 108, 108, 111, 32, 119, 111, 114, 108, 100, 0]⟩

/-- The buffer of a string object holding `"he\0lo"`: a terminator at offset 2, size 5. -/
def embedded : memory Nat :=
  ⟨[104, 101, 0, 108, 111, 0]⟩

/-- A buffer of `k` characters `'a'` followed by the terminator. -/
def long_string (k : Nat) : memory Nat :=
  ⟨List.replicate k 97 ++ [0]⟩

/-- The checked, zero-terminated view of `"hello"`: pointer at `'h'`, size 5. -/
def hello_view :
    basic_string_views Nat .explicit_ .zero_terminated (default_content_policy Nat) .checked :=
  ⟨⟨⟨1, 5⟩⟩⟩

/-- A checked, not-terminated view of size 5 at the start of a buffer. -/
def head_view :
    basic_string_views Nat .implicit_ .not_zero_terminated (default_content_policy Nat) .checked :=
  ⟨⟨⟨1, 5⟩⟩⟩

/-- An empty checked view at the start of a buffer. -/
def empty_view :
    basic_string_views Nat .explicit_ .zero_terminated (default_content_policy Nat) .checked :=
  ⟨⟨⟨1, 0⟩⟩⟩

/-! ## Integer conversions -/

theorem to_size_t_natCast (b : build) (n : Nat) (h : n < 2 ^ b.size_bits) :
    to_size_t b (n : Int) = n := by
  unfold to_size_t
  have h2 : ((n : Int) % 2 ^ b.size_bits) = n :=
    Int.emod_eq_of_lt (by positivity) (by exact_mod_cast h)
  simp [h2]

theorem to_unsigned_long_succ (b : build) (n : Nat) :
    to_unsigned_long b (1 + (n : Int)) = (1 + n) % 2 ^ b.unsigned_long_bits := by
  unfold to_unsigned_long
  have h2 : (1 + (n : Int)) % 2 ^ b.unsigned_long_bits
      = (((1 + n) % 2 ^ b.unsigned_long_bits : Nat) : Int) := by
    push_cast
    rfl
  rw [h2, Int.toNat_ofNat]

/-! ## The terminator scan -/

theorem len_cells_nil {character : Type} [Zero character] [DecidableEq character]
    (b : build) : detail.len_cells b ([] : List character) = none := rfl

theorem len_cells_cons {character : Type} [Zero character] [DecidableEq character]
    (b : build) (c : character) (rest : List character) :
    detail.len_cells b (c :: rest) =
      if c ≠ 0 then
        (detail.len_cells b rest).map (fun n => (1 + n) % 2 ^ b.unsigned_long_bits)
      else some 0 := by
  simp only [detail.len_cells, to_unsigned_long_succ]

theorem len_cells_drop {character : Type} [Zero character] [DecidableEq character]
    (b : build) (l : List character) (k : Nat) :
    detail.len_cells b (l.drop k) =
      match l[k]? with
      | none => none
      | some c =>
        if c ≠ 0 then
          (detail.len_cells b (l.drop (k + 1))).map
            (fun n => (1 + n) % 2 ^ b.unsigned_long_bits)
        else some 0 := by
  cases hd : List.drop k l with
  | nil =>
    have hlen : l.length ≤ k := List.drop_eq_nil_iff.mp hd
    simp [List.getElem?_eq_none hlen, len_cells_nil]
  | cons c rest =>
    have hget : l[k]? = some c := by
      have h0 := List.getElem?_drop l k 0
      rw [hd] at h0
      simpa using h0.symm
    have hrest : List.drop (k + 1) l = rest := by
      rw [← List.drop_drop 1 k l, hd]
      rfl
    simp only [hget, hrest, len_cells_cons]

/-- The scan follows the source line by line: read `*str`, stop on the
terminator, otherwise add one to the scan from `++str`. -/
theorem len_unfold {character : Type} [Zero character] [DecidableEq character]
    (b : build) (m : memory character) (str : Int) :
    detail.len b m str =
      match m.load str with
      | none => none
      | some c =>
        if c ≠ 0 then
          (detail.len b m (str + 1)).map (fun n => (1 + n) % 2 ^ b.unsigned_long_bits)
        else some 0 := by
  unfold detail.len memory.load
  simp only [pointer]
  by_cases h : str ≤ 0
  · simp [h]
  · have h1 : ¬ str + 1 ≤ 0 := by omega
    have h2 : (str + 1 - 1).toNat = (str - 1).toNat + 1 := by omega
    simp only [h, h1, if_false, h2]
    exact len_cells_drop b m.cells (str - 1).toNat

/-- The scan never counts more cells than there are before the terminator. -/
theorem len_cells_lt_length {character : Type} [Zero character] [DecidableEq character]
    (b : build) (l : List character) (n : Nat)
    (h : detail.len_cells b l = some n) : n < l.length := by
  induction l generalizing n with
  | nil => simp [len_cells_nil] at h
  | cons c rest ih =>
    rw [len_cells_cons] at h
    by_cases hc : c ≠ 0
    · simp only [hc, if_true, ne_eq, not_false_eq_true, Option.map_eq_some'] at h
      obtain ⟨k, hk, rfl⟩ := h
      have := ih k hk
      have hle : (1 + k) % 2 ^ b.unsigned_long_bits ≤ 1 + k := Nat.mod_le _ _
      simp only [List.length_cons]
      omega
    · simp only [hc, if_false] at h
      cases h
      simp

/-- On cells whose first terminator is at index `n` the scan returns `n` reduced
to the width of `unsigned long`. -/
theorem len_cells_first_terminator {character : Type} [Zero character] [DecidableEq character]
    (b : build) (l : List character) (n : Nat)
    (hz : l[n]? = some 0) (hnz : ∀ i, i < n → l[i]? ≠ some 0) :
    detail.len_cells b l = some (n % 2 ^ b.unsigned_long_bits) := by
  induction l generalizing n with
  | nil => simp at hz
  | cons c rest ih =>
    rw [len_cells_cons]
    cases n with
    | zero =>
      have hc : c = 0 := by simpa using hz
      simp [hc]
    | succ k =>
      have hc : c ≠ 0 := by
        have := hnz 0 (Nat.succ_pos k)
        simpa using this
      have hrest := ih k (by simpa using hz) (fun i hi => by
        have := hnz (i + 1) (Nat.succ_lt_succ hi)
        simpa using this)
      simp only [hc, if_true, ne_eq, not_false_eq_true, hrest, Option.map_some']
      congr 1
      rw [Nat.add_comm 1, Nat.add_mod, Nat.mod_mod, ← Nat.add_mod]

theorem load_eq_getElem {character : Type} (m : memory character) (str : Int) (h : 1 ≤ str) (k : Nat) :
    m.load (str + k) = (m.cells.drop (str - 1).toNat)[k]? := by
  unfold memory.load
  simp only [pointer]
  have h1 : ¬ str + k ≤ 0 := by omega
  have h2 : (str + k - 1).toNat = (str - 1).toNat + k := by omega
  simp [h1, h2, List.getElem?_drop]

/-- For a sequence whose first terminator is at offset `n`, the scan returns
`n` reduced to the width of `unsigned long`. -/
theorem len_first_terminator_mod {character : Type} [Zero character] [DecidableEq character]
    (b : build) (m : memory character) (str : Int) (n : Nat)
    (hstr : 1 ≤ str) (hz : m.load (str + n) = some 0)
    (hnz : ∀ i, i < n → m.load (str + i) ≠ some 0) :
    detail.len b m str = some (n % 2 ^ b.unsigned_long_bits) := by
  have h0 : ¬ str ≤ 0 := by omega
  unfold detail.len
  simp only [h0, if_false]
  apply len_cells_first_terminator
  · rw [← load_eq_getElem m str hstr]; exact hz
  · intro i hi
    rw [← load_eq_getElem m str hstr]; exact hnz i hi

/-- Where the offset of the first terminator is an `unsigned long` value, the
scan returns exactly that offset. -/
theorem len_first_terminator {character : Type} [Zero character] [DecidableEq character]
    (b : build) (m : memory character) (str : Int) (n : Nat)
    (hstr : 1 ≤ str) (hz : m.load (str + n) = some 0)
    (hnz : ∀ i, i < n → m.load (str + i) ≠ some 0) (hn : n < 2 ^ b.unsigned_long_bits) :
    detail.len b m str = some n := by
  rw [len_first_terminator_mod b m str n hstr hz hnz, Nat.mod_eq_of_lt hn]

/-- The result of a scan is a `std::size_t` value when the storage is addressable. -/
theorem len_lt_size {character : Type} [Zero character] [DecidableEq character]
    (b : build) (m : memory character) (str : Int) (n : Nat)
    (hm : m.addressable b) (h : detail.len b m str = some n) : n < 2 ^ b.size_bits := by
  unfold detail.len at h
  by_cases h0 : str ≤ 0
  · simp [h0] at h
  · simp only [h0, if_false] at h
    have h1 := len_cells_lt_length b _ n h
    have h2 : (List.drop (str - 1).toNat m.cells).length ≤ m.cells.length := by
      simp
    unfold memory.addressable at hm
    omega

/-- A terminator at index `k` stops the scan at or before `k`. -/
theorem len_cells_le_of_terminator {character : Type} [Zero character] [DecidableEq character]
    (b : build) (l : List character) (k : Nat) (hz : l[k]? = some 0) :
    ∃ n, detail.len_cells b l = some n ∧ n ≤ k := by
  induction l generalizing k with
  | nil => simp at hz
  | cons c rest ih =>
    rw [len_cells_cons]
    by_cases hc : c ≠ 0
    · cases k with
      | zero =>
        have : c = 0 := by simpa using hz
        exact absurd this hc
      | succ j =>
        obtain ⟨n, hn, hle⟩ := ih j (by simpa using hz)
        refine ⟨(1 + n) % 2 ^ b.unsigned_long_bits, by simp [hc, hn], ?_⟩
        have := Nat.mod_le (1 + n) (2 ^ b.unsigned_long_bits)
        omega
    · exact ⟨0, by simp [hc], Nat.zero_le _⟩

theorem to_size_t_sub (b : build) (begin_ end_ : Int) (h : begin_ ≤ end_)
    (hfit : end_ - begin_ < 2 ^ b.size_bits) :
    to_size_t b (end_ - begin_) = (end_ - begin_).toNat := by
  have h0 : 0 ≤ end_ - begin_ := by omega
  have hcast : (((end_ - begin_).toNat : Nat) : Int) = end_ - begin_ := Int.toNat_of_nonneg h0
  have hlt : (end_ - begin_).toNat < 2 ^ b.size_bits := by
    have : (((end_ - begin_).toNat : Nat) : Int) < ((2 ^ b.size_bits : Nat) : Int) := by
      rw [hcast]
      exact_mod_cast hfit
    exact_mod_cast this
  have := to_size_t_natCast b (end_ - begin_).toNat hlt
  rw [hcast] at this
  exact this

theorem long_string_length (k : Nat) : (long_string k).cells.length = k + 1 := by
  simp [long_string]

theorem long_string_load_terminator (k : Nat) :
    (long_string k).load (1 + (k : Int)) = some 0 := by
  rw [load_eq_getElem (long_string k) 1 (le_refl 1)]
  simp [long_string, List.getElem?_append_right]

theorem long_string_load_char (k i : Nat) (h : i < k) :
    (long_string k).load (1 + (i : Int)) = some 97 := by
  rw [load_eq_getElem (long_string k) 1 (le_refl 1)]
  have hlt : i < (List.replicate k 97).length := by simpa using h
  simp only [long_string, Int.sub_self, Int.toNat_zero, List.drop_zero]
  rw [List.getElem?_append_left hlt, List.getElem?_replicate]
  simp [h]

/-! ## Overload resolution for each argument shape -/

theorem construct_char_pointer {character : Type} [Zero character] [DecidableEq character]
    (p : conversion_policy) (format : format_policy) (cp : content_policy character)
    (debug : debug_policy) (b : build) (m : memory character) (s : Int) :
    construct .direct p format cp debug b m (.char_pointer s) =
      basic_string_views.from_charp p format cp debug b m s := by
  cases p <;> rfl

theorem construct_pointer_and_size {character : Type} [Zero character] [DecidableEq character]
    (init : initialization) (p : conversion_policy) (format : format_policy)
    (cp : content_policy character) (debug : debug_policy) (b : build) (m : memory character)
    (begin_ : Int) (size_ : Nat) :
    construct init p format cp debug b m (.pointer_and_size begin_ size_) =
      basic_string_views.from_begin_size p format cp debug m begin_ size_ := by
  cases init <;> cases p <;> rfl

theorem construct_pointer_pair {character : Type} [Zero character] [DecidableEq character]
    (init : initialization) (p : conversion_policy) (format : format_policy)
    (cp : content_policy character) (debug : debug_policy) (b : build) (m : memory character)
    (begin_ end_ : Int) :
    construct init p format cp debug b m (.pointer_pair begin_ end_) =
      basic_string_views.from_begin_end p format cp debug b m begin_ end_ := by
  cases init <;> cases p <;> rfl

theorem construct_string_like {character : Type} [Zero character] [DecidableEq character]
    (p : conversion_policy) (format : format_policy) (cp : content_policy character)
    (debug : debug_policy) (b : build) (m : memory character) (s : string_object) :
    construct .direct p format cp debug b m (.string_like s) =
      basic_string_views.from_string p format cp debug m s := by
  cases p <;> rfl

theorem construct_null_literal {character : Type} [Zero character] [DecidableEq character]
    (init : initialization) (p : conversion_policy) (format : format_policy)
    (cp : content_policy character) (debug : debug_policy) (b : build) (m : memory character) :
    resolve init p format debug (.null_literal : argument character cp) = .ok .from_nullptr ∧
    construct init p format cp debug b m .null_literal = .error .deleted_constructor := by
  cases init <;> cases p <;> exact ⟨rfl, rfl⟩

theorem construct_view {character : Type} [Zero character] [DecidableEq character]
    (p : conversion_policy) (format : format_policy) (cp : content_policy character)
    (debug : debug_policy) (b : build) (m : memory character)
    {p2 : conversion_policy} {f : format_policy} {d : debug_policy}
    (sv : basic_string_views character p2 f cp d) :
    construct .direct p format cp debug b m (.view sv) =
      if p2 = p ∧ f = format ∧ d = debug then .ok sv.copy
      else basic_string_views.from_view p format cp debug m sv := by
  revert sv
  cases p <;> cases format <;> cases debug <;> cases p2 <;> cases f <;> cases d <;>
    intro sv <;> rfl

/-- The base-class constructor stores the pointer and the length it is given
and completes exactly when the content check passes. -/
theorem of_base_ctor {character : Type} (p : conversion_policy) (format : format_policy)
    (cp : content_policy character) (debug : debug_policy) (m : memory character)
    (begin_ : Int) (size_ : Nat) :
    basic_string_views.of_base p format debug (checked_buff_view.ctor cp m begin_ size_) =
      if cp.check m begin_ (begin_ + size_) then .ok ⟨⟨⟨begin_, size_⟩⟩⟩
      else .error .content_violation := by
  unfold checked_buff_view.ctor basic_string_views.of_base buff_view.data buff_view.size
  by_cases h : cp.check m begin_ (begin_ + size_) = true <;> simp [h]

/-! ## Construction -/

/-- C1: for a zero-terminated sequence at `s` (the scan `detail::len(s)` returns
`n`) and every policy combination, the single-pointer constructor yields, when
the content check passes, a view with `data() == s` and `size() == n`; no other
view can result. -/
theorem charp_constructor_data_and_size {character : Type} [Zero character]
    [DecidableEq character] (p : conversion_policy) (format : format_policy)
    (cp : content_policy character) (debug : debug_policy) (b : build) (m : memory character)
    (s : Int) (n : Nat) (hm : m.addressable b) (hlen : detail.len b m s = some n) :
    (cp.check m s (s + n) = true →
      ∃ v, construct .direct p format cp debug b m (.char_pointer s) = .ok v ∧
        v.data = s ∧ v.size = n) ∧
    (∀ v, construct .direct p format cp debug b m (.char_pointer s) = .ok v →
      v.data = s ∧ v.size = n) := by
  have hsize : to_size_t b (n : Int) = n := to_size_t_natCast b n (len_lt_size b m s n hm hlen)
  have hrun : construct .direct p format cp debug b m (.char_pointer s) =
      if cp.check m s (s + n) then .ok ⟨⟨⟨s, n⟩⟩⟩ else .error .content_violation := by
    rw [construct_char_pointer]
    unfold basic_string_views.from_charp
    simp only [hlen, hsize]
    exact of_base_ctor p format cp debug m s n
  constructor
  · intro hc
    exact ⟨⟨⟨⟨s, n⟩⟩⟩, by rw [hrun]; simp [hc], rfl, rfl⟩
  · intro v hv
    rw [hrun] at hv
    by_cases hc : cp.check m s (s + n) = true
    · simp only [hc, if_true] at hv
      cases hv
      exact ⟨rfl, rfl⟩
    · simp [hc] at hv

/-- C1 at the buffer `"hello"`: the default view has `data()` at `'h'`,
`size() == 5` and `operator[](4) == 'o'`. -/
theorem charp_constructor_data_and_size_witness :
    ∃ v, construct .direct .explicit_ .zero_terminated (default_content_policy Nat)
        (debug_policy.global lp64) lp64 hello (.char_pointer 1) = .ok v ∧
      v.data = 1 ∧ v.size = 5 ∧ v.operator_subscript lp64 hello 4 = .value 111 := by
  obtain ⟨v, hv, hd, hs⟩ :=
    (charp_constructor_data_and_size .explicit_ .zero_terminated (default_content_policy Nat)
      (debug_policy.global lp64) lp64 hello 1 5 (by decide)
      (by decide)).1 rfl
  refine ⟨v, hv, hd, hs, ?_⟩
  unfold basic_string_views.operator_subscript
  rw [hd, hs]
  rfl

/-- C2 at a build with a 32-bit `unsigned long` and a 64-bit `std::size_t`: on a
buffer of `2 ^ 32` non-zero characters followed by the terminator, the first
terminator is at offset `2 ^ 32` and `detail::len` returns `0`. -/
theorem len_wraps_at_unsigned_long_width :
    (long_string (2 ^ 32)).addressable llp64 ∧
    (long_string (2 ^ 32)).load (1 + ((2 ^ 32 : Nat) : Int)) = some 0 ∧
    (∀ i : Nat, i < 2 ^ 32 → (long_string (2 ^ 32)).load (1 + (i : Int)) ≠ some 0) ∧
    detail.len llp64 (long_string (2 ^ 32)) 1 = some 0 := by
  have hz := long_string_load_terminator (2 ^ 32)
  have hnz : ∀ i : Nat, i < 2 ^ 32 → (long_string (2 ^ 32)).load (1 + (i : Int)) ≠ some 0 := by
    intro i hi
    rw [long_string_load_char (2 ^ 32) i hi]
    decide
  refine ⟨?_, hz, hnz, ?_⟩
  · unfold memory.addressable
    rw [long_string_length]
    decide
  · rw [len_first_terminator_mod llp64 (long_string (2 ^ 32)) 1 (2 ^ 32) (le_refl 1) hz hnz]
    decide

/-- C3: for every pointer, length and policy combination, the (pointer, length)
constructor yields, when the content check passes, a view with `data() == p` and
`size() == n`, and no other view; under the default content policy the result
is that view whatever the storage holds. -/
theorem pointer_length_constructor_data_and_size {character : Type} [Zero character]
    [DecidableEq character] (init : initialization) (p : conversion_policy)
    (format : format_policy) (cp : content_policy character) (debug : debug_policy)
    (b : build) (m : memory character) (begin_ : Int) (n : Nat) :
    (cp.check m begin_ (begin_ + n) = true →
      ∃ v, construct init p format cp debug b m (.pointer_and_size begin_ n) = .ok v ∧
        v.data = begin_ ∧ v.size = n) ∧
    (∀ v, construct init p format cp debug b m (.pointer_and_size begin_ n) = .ok v →
      v.data = begin_ ∧ v.size = n) ∧
    (∀ m2 : memory character,
      construct init p format (default_content_policy character) debug b m2
        (.pointer_and_size begin_ n) = .ok ⟨⟨⟨begin_, n⟩⟩⟩) := by
  have hrun : ∀ (cp2 : content_policy character) (m2 : memory character),
      construct init p format cp2 debug b m2 (.pointer_and_size begin_ n) =
        if cp2.check m2 begin_ (begin_ + n) then .ok ⟨⟨⟨begin_, n⟩⟩⟩
        else .error .content_violation := by
    intro cp2 m2
    rw [construct_pointer_and_size]
    exact of_base_ctor p format cp2 debug m2 begin_ n
  refine ⟨?_, ?_, ?_⟩
  · intro hc
    exact ⟨⟨⟨⟨begin_, n⟩⟩⟩, by rw [hrun]; simp [hc], rfl, rfl⟩
  · intro v hv
    rw [hrun] at hv
    by_cases hc : cp.check m begin_ (begin_ + n) = true
    · simp only [hc, if_true] at hv
      cases hv
      exact ⟨rfl, rfl⟩
    · simp [hc] at hv
  · intro m2
    rw [hrun]
    rfl

/-- C3 at the buffer `"hello world"` with length 5 and the not-terminated
format: `size() == 5`, `operator[](4) == 'o'`, and the element at offset 5 is a
blank, not a terminator. -/
theorem pointer_length_constructor_data_and_size_witness :
    ∃ v, construct .direct .explicit_ .not_zero_terminated (default_content_policy Nat)
        .checked lp64 hello_world (.pointer_and_size 1 5) = .ok v ∧
      v.data = 1 ∧ v.size = 5 ∧ v.operator_subscript lp64 hello_world 4 = .value 111 ∧
      hello_world.load (1 + 5) = some 32 := by
  obtain ⟨v, hv, hd, hs⟩ :=
    (pointer_length_constructor_data_and_size .direct .explicit_ .not_zero_terminated
      (default_content_policy Nat) .checked lp64 hello_world 1 5).1 rfl
  refine ⟨v, hv, hd, hs, ?_, by decide⟩
  unfold basic_string_views.operator_subscript
  rw [hd, hs]
  rfl

/-- C4: for pointers `begin <= end` into the same buffer and every policy
combination, the (begin, end) constructor yields, when the content check
passes, a view with `data() == begin` and `size() == end - begin`, and no other
view; under the default content policy the result is that view whatever the
storage holds. -/
theorem begin_end_constructor_data_and_size {character : Type} [Zero character]
    [DecidableEq character] (init : initialization) (p : conversion_policy)
    (format : format_policy) (cp : content_policy character) (debug : debug_policy)
    (b : build) (m : memory character) (begin_ end_ : Int)
    (hm : m.addressable b) (hb : m.in_range begin_) (he : m.in_range end_)
    (hle : begin_ ≤ end_) :
    (cp.check m begin_ end_ = true →
      ∃ v, construct init p format cp debug b m (.pointer_pair begin_ end_) = .ok v ∧
        v.data = begin_ ∧ (v.size : Int) = end_ - begin_) ∧
    (∀ v, construct init p format cp debug b m (.pointer_pair begin_ end_) = .ok v →
      v.data = begin_ ∧ (v.size : Int) = end_ - begin_) ∧
    (∀ m2 : memory character,
      construct init p format (default_content_policy character) debug b m2
        (.pointer_pair begin_ end_) = .ok ⟨⟨⟨begin_, (end_ - begin_).toNat⟩⟩⟩) := by
  have hfit : end_ - begin_ < 2 ^ b.size_bits := by
    unfold memory.addressable at hm
    unfold memory.in_range at hb he
    simp only [pointer] at hb he
    have h1 : end_ - begin_ < ((m.cells.length + 1 : Nat) : Int) := by
      push_cast
      omega
    have h2 : ((m.cells.length + 1 : Nat) : Int) < ((2 ^ b.size_bits : Nat) : Int) := by
      exact_mod_cast hm
    have h3 : ((2 ^ b.size_bits : Nat) : Int) = 2 ^ b.size_bits := by push_cast; rfl
    omega
  have hsize := to_size_t_sub b begin_ end_ hle hfit
  have hcast : (((end_ - begin_).toNat : Nat) : Int) = end_ - begin_ :=
    Int.toNat_of_nonneg (by omega)
  have hend : begin_ + (((end_ - begin_).toNat : Nat) : Int) = end_ := by omega
  have hrun : ∀ (cp2 : content_policy character) (m2 : memory character),
      construct init p format cp2 debug b m2 (.pointer_pair begin_ end_) =
        if cp2.check m2 begin_ end_ then .ok ⟨⟨⟨begin_, (end_ - begin_).toNat⟩⟩⟩
        else .error .content_violation := by
    intro cp2 m2
    rw [construct_pointer_pair]
    unfold basic_string_views.from_begin_end
    rw [hsize, of_base_ctor, hend]
  refine ⟨?_, ?_, ?_⟩
  · intro hc
    exact ⟨⟨⟨⟨begin_, (end_ - begin_).toNat⟩⟩⟩, by rw [hrun]; simp [hc], rfl, hcast⟩
  · intro v hv
    rw [hrun] at hv
    by_cases hc : cp.check m begin_ end_ = true
    · simp only [hc, if_true] at hv
      cases hv
      exact ⟨rfl, hcast⟩
    · simp [hc] at hv
  · intro m2
    rw [hrun]
    rfl

/-- C4 at the buffer `"hello world"`: the pair (address of `'h'`, address of the
blank) gives a view at `'h'` of size 5. -/
theorem begin_end_constructor_data_and_size_witness :
    ∃ v, construct .direct .implicit_ .not_zero_terminated (default_content_policy Nat)
        .unchecked lp64 hello_world (.pointer_pair 1 6) = .ok v ∧
      v.data = 1 ∧ (v.size : Int) = 6 - 1 :=
  (begin_end_constructor_data_and_size .direct .implicit_ .not_zero_terminated
    (default_content_policy Nat) .unchecked lp64 hello_world 1 6
    (by decide) (by decide)
    (by decide) (by decide)).1 rfl

/-- C5: for every string-like object `s`, the view built from it has
`data() == s.c_str()` and `size() == s.size()` (when the content check passes,
and no other view results); the length is not scanned: with a terminator
embedded at an offset below `s.size()`, `detail::len(s.c_str())` returns a
value smaller than the view's `size()`. -/
theorem string_constructor_data_and_size {character : Type} [Zero character]
    [DecidableEq character] (p : conversion_policy) (format : format_policy)
    (cp : content_policy character) (debug : debug_policy) (b : build) (m : memory character)
    (s : string_object) :
    (cp.check m s.c_str (s.c_str + s.size) = true →
      ∃ v, construct .direct p format cp debug b m (.string_like s) = .ok v ∧
        v.data = s.c_str ∧ v.size = s.size) ∧
    (∀ v, construct .direct p format cp debug b m (.string_like s) = .ok v →
      v.data = s.c_str ∧ v.size = s.size) ∧
    (∀ v k, construct .direct p format cp debug b m (.string_like s) = .ok v →
      1 ≤ s.c_str → k < s.size → m.load (s.c_str + k) = some 0 →
      ∃ n, detail.len b m s.c_str = some n ∧ n < v.size) := by
  have hrun : construct .direct p format cp debug b m (.string_like s) =
      if cp.check m s.c_str (s.c_str + s.size) then .ok ⟨⟨⟨s.c_str, s.size⟩⟩⟩
      else .error .content_violation := by
    rw [construct_string_like]
    exact of_base_ctor p format cp debug m s.c_str s.size
  have hview : ∀ v, construct .direct p format cp debug b m (.string_like s) = .ok v →
      v.data = s.c_str ∧ v.size = s.size := by
    intro v hv
    rw [hrun] at hv
    by_cases hc : cp.check m s.c_str (s.c_str + s.size) = true
    · simp only [hc, if_true] at hv
      cases hv
      exact ⟨rfl, rfl⟩
    · simp [hc] at hv
  refine ⟨?_, hview, ?_⟩
  · intro hc
    exact ⟨⟨⟨⟨s.c_str, s.size⟩⟩⟩, by rw [hrun]; simp [hc], rfl, rfl⟩
  · intro v k hv hptr hk hz
    rw [load_eq_getElem m s.c_str hptr k] at hz
    obtain ⟨n, hn, hle⟩ := len_cells_le_of_terminator b _ k hz
    have h0 : ¬ s.c_str ≤ 0 := by
      simp only [pointer] at hptr ⊢
      omega
    refine ⟨n, ?_, ?_⟩
    · unfold detail.len
      simp only [h0, if_false]
      exact hn
    · rw [(hview v hv).2]
      omega

/-- C5 at a string object of size 5 holding `"he\0lo"`: the view has size 5
while the scan from `c_str()` returns 2. -/
theorem string_constructor_data_and_size_witness :
    ∃ v, construct .direct .explicit_ .zero_terminated (default_content_policy Nat)
        .unchecked lp64 embedded (.string_like ⟨1, 5⟩) = .ok v ∧
      v.data = 1 ∧ v.size = 5 ∧ detail.len lp64 embedded 1 = some 2 := by
  obtain ⟨v, hv, hd, hs⟩ :=
    (string_constructor_data_and_size .explicit_ .zero_terminated (default_content_policy Nat)
      .unchecked lp64 embedded ⟨1, 5⟩).1 rfl
  exact ⟨v, hv, hd, hs, by decide⟩

/-- C6: for a source view of format `f` and a target type of format `format`
(any conversion and debug policies on either side), the conversion compiles if
and only if `f` is `zero_terminated` or `f` equals `format`; it is rejected
exactly for a not-terminated source and a terminated target. -/
theorem view_conversion_compiles_iff {character : Type} [Zero character]
    [DecidableEq character] (p : conversion_policy) (format : format_policy)
    (cp : content_policy character) (debug : debug_policy) (b : build) (m : memory character)
    {p2 : conversion_policy} {f : format_policy} {d : debug_policy}
    (sv : basic_string_views character p2 f cp d) :
    (compiles (construct .direct p format cp debug b m (.view sv)) = true ↔
      (f = .zero_terminated ∨ f = format)) ∧
    (compiles (construct .direct p format cp debug b m (.view sv)) = false ↔
      (f = .not_zero_terminated ∧ format = .zero_terminated)) := by
  have hfrom : compiles (basic_string_views.from_view p format cp debug m sv) =
      decide (f = .zero_terminated ∨ f = format) := by
    unfold basic_string_views.from_view
    by_cases hf : f = .zero_terminated ∨ f = format
    · rw [if_pos hf, of_base_ctor]
      by_cases hc : cp.check m sv.data (sv.data + sv.size) = true <;>
        simp [hc, hf, compiles, failure.at_compile_time]
    · rw [if_neg hf]
      simp [hf, compiles, failure.at_compile_time]
  have hall : compiles (construct .direct p format cp debug b m (.view sv)) =
      decide (f = .zero_terminated ∨ f = format) := by
    rw [construct_view]
    by_cases hsame : p2 = p ∧ f = format ∧ d = debug
    · rw [if_pos hsame]
      simp [compiles, hsame.2.1]
    · rw [if_neg hsame]
      exact hfrom
  rw [hall]
  constructor
  · simp
  · cases f <;> cases format <;> simp

/-- C6 at a terminated source and a not-terminated target: the conversion
compiles. -/
theorem view_conversion_compiles_iff_witness :
    compiles (construct .direct .implicit_ .not_zero_terminated (default_content_policy Nat)
      .unchecked lp64 hello (.view hello_view)) = true :=
  (view_conversion_compiles_iff .implicit_ .not_zero_terminated (default_content_policy Nat)
    .unchecked lp64 hello hello_view).1.mpr (Or.inl rfl)

/-- C7: every view `B` constructed from a view `A` has `B.data() == A.data()`
and `B.size() == A.size()`, and such a `B` results whenever the formats are
compatible and the content check passes (the identical policy set included). -/
theorem view_conversion_preserves_data_and_size {character : Type} [Zero character]
    [DecidableEq character] (p : conversion_policy) (format : format_policy)
    (cp : content_policy character) (debug : debug_policy) (b : build) (m : memory character)
    {p2 : conversion_policy} {f : format_policy} {d : debug_policy}
    (A : basic_string_views character p2 f cp d) :
    (∀ B, construct .direct p format cp debug b m (.view A) = .ok B →
      B.data = A.data ∧ B.size = A.size) ∧
    ((f = .zero_terminated ∨ f = format) → cp.check m A.data (A.data + A.size) = true →
      ∃ B, construct .direct p format cp debug b m (.view A) = .ok B ∧
        B.data = A.data ∧ B.size = A.size) := by
  have hfrom : (f = .zero_terminated ∨ f = format) →
      basic_string_views.from_view p format cp debug m A =
        if cp.check m A.data (A.data + A.size) then .ok ⟨⟨⟨A.data, A.size⟩⟩⟩
        else .error .content_violation := by
    intro hf
    unfold basic_string_views.from_view
    rw [if_pos hf, of_base_ctor]
  constructor
  · intro B hB
    rw [construct_view] at hB
    by_cases hsame : p2 = p ∧ f = format ∧ d = debug
    · rw [if_pos hsame] at hB
      cases hB
      exact ⟨rfl, rfl⟩
    · rw [if_neg hsame] at hB
      by_cases hf : f = .zero_terminated ∨ f = format
      · rw [hfrom hf] at hB
        by_cases hc : cp.check m A.data (A.data + A.size) = true
        · simp only [hc, if_true] at hB
          cases hB
          exact ⟨rfl, rfl⟩
        · simp [hc] at hB
      · unfold basic_string_views.from_view at hB
        rw [if_neg hf] at hB
        cases hB
  · intro hf hc
    rw [construct_view]
    by_cases hsame : p2 = p ∧ f = format ∧ d = debug
    · rw [if_pos hsame]
      exact ⟨A.copy, rfl, rfl, rfl⟩
    · rw [if_neg hsame, hfrom hf]
      exact ⟨⟨⟨⟨A.data, A.size⟩⟩⟩, by simp [hc], rfl, rfl⟩

/-- C7 at the view of `"hello"`: converted to the identical policy set and to
an implicit, not-terminated, unchecked one, the result is at `'h'` with size 5. -/
theorem view_conversion_preserves_data_and_size_witness :
    (∃ B, construct .direct .explicit_ .zero_terminated (default_content_policy Nat)
        .checked lp64 hello (.view hello_view) = .ok B ∧ B.data = 1 ∧ B.size = 5) ∧
    (∃ B, construct .direct .implicit_ .not_zero_terminated (default_content_policy Nat)
        .unchecked lp64 hello (.view hello_view) = .ok B ∧ B.data = 1 ∧ B.size = 5) :=
  ⟨(view_conversion_preserves_data_and_size .explicit_ .zero_terminated
      (default_content_policy Nat) .checked lp64 hello hello_view).2 (Or.inl rfl) rfl,
   (view_conversion_preserves_data_and_size .implicit_ .not_zero_terminated
      (default_content_policy Nat) .unchecked lp64 hello hello_view).2 (Or.inl rfl) rfl⟩

/-- C8: for every initialisation form and every combination of conversion,
format, content and debug policy, a construction from the literal `nullptr`
selects the deleted constructor, which no `enable_if` removes, and is rejected. -/
theorem nullptr_construction_rejected {character : Type} [Zero character]
    [DecidableEq character] (init : initialization) (p : conversion_policy)
    (format : format_policy) (cp : content_policy character) (debug : debug_policy)
    (b : build) (m : memory character) :
    ctor.enabled p .from_nullptr = true ∧ ctor.is_deleted .from_nullptr = true ∧
    resolve init p format debug (.null_literal : argument character cp) = .ok .from_nullptr ∧
    construct init p format cp debug b m .null_literal = .error .deleted_constructor ∧
    compiles (construct init p format cp debug b m .null_literal) = false := by
  have h := construct_null_literal init p format cp debug b m
  refine ⟨rfl, rfl, h.1, h.2, ?_⟩
  rw [h.2]
  rfl

/-! ## Element access -/

theorem deref_ne_assertion_failure {character : Type} (m : memory character) (q : Int) :
    m.deref q ≠ .assertion_failure := by
  unfold memory.deref
  cases m.load q <;> simp

theorem deref_of_load {character : Type} (m : memory character) (q : Int) (c : character)
    (h : m.load q = some c) : m.deref q = .value c := by
  unfold memory.deref
  rw [h]

/-- C9 fails where `NDEBUG` is defined: the checked view of `"hello"` (as built
by the single-pointer constructor) indexed at offset `5 == size()` returns the
terminator and triggers no assertion. -/
theorem subscript_at_size_without_assertion :
    construct .direct .explicit_ .zero_terminated (default_content_policy Nat) .checked
      lp64_ndebug hello (.char_pointer 1) = .ok hello_view ∧
    hello_view.size ≤ 5 ∧
    hello_view.operator_subscript lp64_ndebug hello 5 = .value 0 ∧
    hello_view.operator_subscript lp64_ndebug hello 5 ≠ .assertion_failure := by
  refine ⟨rfl, by decide, by decide, by decide⟩

/-- C9, amended: in a build where `assert` is active (`NDEBUG` not defined), a
view with the checked debug policy triggers the bounds assertion in
`operator[](i)` if and only if `i >= size()`; for `i < size()` the result is the
evaluation of `data()[i]`, the element stored at offset `i` from `data()`. -/
theorem subscript_assertion_iff {character : Type} {p : conversion_policy}
    {format : format_policy} {cp : content_policy character} (b : build)
    (m : memory character) (v : basic_string_views character p format cp .checked) (i : Nat)
    (hnd : b.NDEBUG = false) :
    (v.operator_subscript b m i = .assertion_failure ↔ v.size ≤ i) ∧
    (i < v.size → v.operator_subscript b m i = m.deref (v.data + i)) ∧
    (∀ c, i < v.size → m.load (v.data + i) = some c →
      v.operator_subscript b m i = .value c) := by
  have hin : i < v.size → v.operator_subscript b m i = m.deref (v.data + i) := by
    intro hi
    unfold basic_string_views.operator_subscript assert_triggers
    simp [hnd, hi]
  refine ⟨?_, hin, ?_⟩
  · constructor
    · intro h
      by_contra hlt
      have hi : i < v.size := by omega
      rw [hin hi] at h
      exact deref_ne_assertion_failure m _ h
    · intro hge
      have hi : ¬ i < v.size := by omega
      unfold basic_string_views.operator_subscript assert_triggers
      simp [hnd, hi]
  · intro c hi hc
    rw [hin hi]
    exact deref_of_load m _ c hc

/-- C9, amended, at the checked view of `"hello"` with assertions active:
offset 5 asserts, offset 4 returns `'o'`. -/
theorem subscript_assertion_iff_witness :
    hello_view.operator_subscript lp64 hello 5 = .assertion_failure ∧
    hello_view.operator_subscript lp64 hello 4 = .value 111 :=
  ⟨(subscript_assertion_iff lp64 hello hello_view 5 rfl).1.mpr (by decide),
   (subscript_assertion_iff lp64 hello hello_view 4 rfl).2.2 111 (by decide) (by decide)⟩

/-- C10 fails where `NDEBUG` is defined: on an empty checked view `front()`
returns the element at `data()` and `back()` reads before `data()`, and neither
triggers an assertion. -/
theorem front_back_on_empty_without_assertion :
    construct .direct .explicit_ .zero_terminated (default_content_policy Nat) .checked
      lp64_ndebug hello (.pointer_and_size 1 0) = .ok empty_view ∧
    empty_view.empty = true ∧
    empty_view.front lp64_ndebug hello = .value 104 ∧
    empty_view.back lp64_ndebug hello = .undefined_behaviour ∧
    empty_view.front lp64_ndebug hello ≠ .assertion_failure ∧
    empty_view.back lp64_ndebug hello ≠ .assertion_failure := by
  refine ⟨rfl, by decide, by decide, by decide, by decide, by decide⟩

/-- C10, amended: in a build where `assert` is active (`NDEBUG` not defined), a
view with the checked debug policy triggers the bounds assertion in `front()`
and in `back()` if and only if it is empty; on a non-empty view they evaluate
`*data()` and `*(data() + size() - 1)`, the elements at offset 0 and at offset
`size() - 1`. -/
theorem front_back_assertion_iff {character : Type} {p : conversion_policy}
    {format : format_policy} {cp : content_policy character} (b : build)
    (m : memory character) (v : basic_string_views character p format cp .checked)
    (hnd : b.NDEBUG = false) :
    (v.front b m = .assertion_failure ↔ v.empty = true) ∧
    (v.back b m = .assertion_failure ↔ v.empty = true) ∧
    (v.empty = false →
      v.front b m = m.deref (v.data + ((0 : Nat) : Int)) ∧
      v.back b m = m.deref (v.data + ((v.size - 1 : Nat) : Int))) ∧
    (∀ c, v.empty = false → m.load v.data = some c → v.front b m = .value c) ∧
    (∀ c, v.empty = false → m.load (v.data + ((v.size - 1 : Nat) : Int)) = some c →
      v.back b m = .value c) := by
  have hfront : v.empty = false → v.front b m = m.deref (v.data + ((0 : Nat) : Int)) := by
    intro he
    unfold basic_string_views.front assert_triggers
    simp [hnd, he]
  have hback : v.empty = false →
      v.back b m = m.deref (v.data + ((v.size - 1 : Nat) : Int)) := by
    intro he
    have hpos : 1 ≤ v.size := by
      have h1 : v.size ≠ 0 := by
        simpa [basic_string_views.empty, buff_view.empty, basic_string_views.size] using he
      omega
    have hoff : v.data + (v.size : Int) - 1 = v.data + ((v.size - 1 : Nat) : Int) := by
      simp only [pointer]
      omega
    unfold basic_string_views.back assert_triggers
    simp [hnd, he, hoff]
  refine ⟨?_, ?_, fun he => ⟨hfront he, hback he⟩, ?_, ?_⟩
  · constructor
    · intro h
      by_contra hne
      have he : v.empty = false := by simpa using hne
      rw [hfront he] at h
      exact deref_ne_assertion_failure m _ h
    · intro he
      unfold basic_string_views.front assert_triggers
      simp [hnd, he]
  · constructor
    · intro h
      by_contra hne
      have he : v.empty = false := by simpa using hne
      rw [hback he] at h
      exact deref_ne_assertion_failure m _ h
    · intro he
      unfold basic_string_views.back assert_triggers
      simp [hnd, he]
  · intro c he hc
    rw [hfront he]
    exact deref_of_load m _ c (by simpa using hc)
  · intro c he hc
    rw [hback he]
    exact deref_of_load m _ c hc

/-- C10, amended, with assertions active: `front()` and `back()` assert on the
empty view, and return `'h'` and `'o'` on the view of `"hello"`. -/
theorem front_back_assertion_iff_witness :
    empty_view.front lp64 hello = .assertion_failure ∧
    empty_view.back lp64 hello = .assertion_failure ∧
    hello_view.front lp64 hello = .value 104 ∧
    hello_view.back lp64 hello = .value 111 :=
  ⟨(front_back_assertion_iff lp64 hello empty_view rfl).1.mpr (by decide),
   (front_back_assertion_iff lp64 hello empty_view rfl).2.1.mpr (by decide),
   (front_back_assertion_iff lp64 hello hello_view rfl).2.2.2.1 104 (by decide) (by decide),
   (front_back_assertion_iff lp64 hello hello_view rfl).2.2.2.2 111 (by decide) (by decide)⟩

/-! ## c_str, empty and substring -/

/-- C11: `c_str()` is available if and only if the format policy is
`zero_terminated`, and on every view of that format, whatever built it,
`c_str()` returns the pointer `data()`. -/
theorem c_str_available_iff {character : Type} {p : conversion_policy}
    {format : format_policy} {cp : content_policy character} {debug : debug_policy}
    (v : basic_string_views character p format cp debug) :
    (v.c_str.isSome = true ↔ format = .zero_terminated) ∧
    (format = .zero_terminated → v.c_str = some v.data) ∧
    (format = .not_zero_terminated → v.c_str = none) := by
  unfold basic_string_views.c_str
  cases format <;> simp

/-- C11 at the views of `"hello"`: the terminated one returns `data()`, the
not-terminated one has no `c_str()`. -/
theorem c_str_available_iff_witness :
    hello_view.c_str = some hello_view.data ∧ head_view.c_str = none :=
  ⟨(c_str_available_iff hello_view).2.1 rfl, (c_str_available_iff head_view).2.2 rfl⟩

/-- C12: on every `buff_view`, `checked_buff_view` and `basic_string_views`,
`empty()` is true if and only if `size() == 0`. -/
theorem empty_iff_size_zero {character : Type} {p : conversion_policy}
    {format : format_policy} {cp : content_policy character} {debug : debug_policy}
    (u : buff_view character) (w : checked_buff_view character cp)
    (v : basic_string_views character p format cp debug) :
    (u.empty = true ↔ u.size = 0) ∧ (w.empty = true ↔ w.size = 0) ∧
    (v.empty = true ↔ v.size = 0) := by
  simp [buff_view.empty, checked_buff_view.empty, checked_buff_view.size,
    basic_string_views.empty, basic_string_views.size]

/-- The (begin, end) constructor on an ordered pair whose distance is a
`std::size_t` value. -/
theorem from_begin_end_eq {character : Type} (p : conversion_policy) (format : format_policy)
    (cp : content_policy character) (debug : debug_policy) (b : build) (m : memory character)
    (begin_ : Int) (n : Nat) (hn : n < 2 ^ b.size_bits) :
    basic_string_views.from_begin_end p format cp debug b m begin_ (begin_ + n) =
      if cp.check m begin_ (begin_ + n) then .ok ⟨⟨⟨begin_, n⟩⟩⟩
      else .error .content_violation := by
  unfold basic_string_views.from_begin_end
  have hd : begin_ + (n : Int) - begin_ = (n : Int) := by omega
  rw [hd, to_size_t_natCast b n hn]
  exact of_base_ctor p format cp debug m begin_ n

/-- C13: `substring()` leaves the view unchanged and returns, when the content
check passes (and in no case anything else), a view of the same policy set with
the same `data()` and the same `size()`: the size recomputed as
`(data() + size()) - data()` is `size()`. -/
theorem substring_is_identity {character : Type} [Zero character] [DecidableEq character]
    {p : conversion_policy} {format : format_policy} {cp : content_policy character}
    {debug : debug_policy} (b : build) (m : memory character)
    (v : basic_string_views character p format cp debug) (hsize : v.size < 2 ^ b.size_bits) :
    (v.substring b m).1 = v ∧
    (v.data + (v.size : Int)) - v.data = (v.size : Int) ∧
    (cp.check m v.data (v.data + v.size) = true →
      ∃ w, (v.substring b m).2 = .ok w ∧ w.data = v.data ∧ w.size = v.size) ∧
    (∀ w, (v.substring b m).2 = .ok w → w.data = v.data ∧ w.size = v.size) := by
  have hrun : (v.substring b m).2 =
      if cp.check m v.data (v.data + v.size) then .ok ⟨⟨⟨v.data, v.size⟩⟩⟩
      else .error .content_violation := by
    unfold basic_string_views.substring
    simp only
    rw [construct_pointer_pair]
    exact from_begin_end_eq p format cp debug b m v.data v.size hsize
  refine ⟨rfl, ?_, ?_, ?_⟩
  · simp only [pointer]
    omega
  · intro hc
    exact ⟨⟨⟨⟨v.data, v.size⟩⟩⟩, by rw [hrun]; simp [hc], rfl, rfl⟩
  · intro w hw
    rw [hrun] at hw
    by_cases hc : cp.check m v.data (v.data + v.size) = true
    · simp only [hc, if_true] at hw
      cases hw
      exact ⟨rfl, rfl⟩
    · simp [hc] at hw

/-- C13 at the view of `"hello"`: `substring()` is again the view at `'h'` of
size 5. -/
theorem substring_is_identity_witness :
    (hello_view.substring lp64 hello).1 = hello_view ∧
    ∃ w, (hello_view.substring lp64 hello).2 = .ok w ∧ w.data = 1 ∧ w.size = 5 :=
  ⟨(substring_is_identity lp64 hello hello_view (by decide)).1,
   (substring_is_identity lp64 hello hello_view (by decide)).2.2.1 rfl⟩

/-! ## The debug policy and the iterators -/

theorem unchecked_never_asserts {character : Type} {p : conversion_policy}
    {format : format_policy} {cp : content_policy character} (g : debug_policy)
    (hg : g = .unchecked) (b : build) (m : memory character)
    (v : basic_string_views character p format cp g) (i : Nat) :
    v.operator_subscript b m i ≠ .assertion_failure ∧ v.front b m ≠ .assertion_failure ∧
    v.back b m ≠ .assertion_failure := by
  subst hg
  have ht : ∀ c : Bool, assert_triggers b (debug_policy.unchecked == .unchecked || c) = false := by
    intro c
    simp [assert_triggers]
  refine ⟨?_, ?_, ?_⟩
  · unfold basic_string_views.operator_subscript
    rw [ht]
    exact deref_ne_assertion_failure m _
  · unfold basic_string_views.front
    rw [ht]
    exact deref_ne_assertion_failure m _
  · unfold basic_string_views.back
    rw [ht]
    exact deref_ne_assertion_failure m _

/-- C15: in a build that does not advertise checked iterators,
`debug_policy::global` is `unchecked`, and a view with that debug policy never
triggers the bounds assertion in `operator[]`, `front()` or `back()`, for any
offset and any size; in a build that advertises them, `global` is `checked`. -/
theorem global_debug_policy_resolution (character : Type) (p : conversion_policy)
    (format : format_policy) (cp : content_policy character) (b : build) :
    (checked_iterators_advertised b = false →
      debug_policy.global b = .unchecked ∧
      ∀ (m : memory character)
        (v : basic_string_views character p format cp (debug_policy.global b)) (i : Nat),
        v.operator_subscript b m i ≠ .assertion_failure ∧
        v.front b m ≠ .assertion_failure ∧ v.back b m ≠ .assertion_failure) ∧
    (checked_iterators_advertised b = true → debug_policy.global b = .checked) := by
  constructor
  · intro hno
    have hg : debug_policy.global b = .unchecked := by
      unfold debug_policy.global
      simp [hno]
    exact ⟨hg, fun m v i => unchecked_never_asserts (debug_policy.global b) hg b m v i⟩
  · intro hyes
    unfold debug_policy.global
    simp [hyes]

/-- C15 at an LP64 build without checked iterators and at an MSVC build with
them: `global` is `unchecked` resp. `checked`, and the empty default view over
`"hello"` does not assert in `front()`. -/
theorem global_debug_policy_resolution_witness :
    debug_policy.global lp64 = .unchecked ∧ debug_policy.global llp64 = .checked ∧
    (⟨⟨⟨1, 0⟩⟩⟩ : basic_string_views Nat .explicit_ .zero_terminated
      (default_content_policy Nat) (debug_policy.global lp64)).front lp64 hello
        ≠ .assertion_failure :=
  ⟨((global_debug_policy_resolution Nat .explicit_ .zero_terminated
      (default_content_policy Nat) lp64).1 rfl).1,
   (global_debug_policy_resolution Nat .explicit_ .zero_terminated
      (default_content_policy Nat) llp64).2 rfl,
   (((global_debug_policy_resolution Nat .explicit_ .zero_terminated
      (default_content_policy Nat) lp64).1 rfl).2 hello ⟨⟨⟨1, 0⟩⟩⟩ 0).2.1⟩

/-- C20: in a build that does not advertise checked iterators, the checked and
the unchecked overload of `detail::make_iterator` both return `it + off`, so
that for every view and every debug policy `begin() == cbegin() == data()`,
`end() == cend() == data() + size()` and `end() - begin() == size()`. -/
theorem iteration_strategies_coincide {character : Type} {p : conversion_policy}
    {format : format_policy} {cp : content_policy character} {debug : debug_policy}
    (b : build) (hno : checked_iterators_advertised b = false)
    (v : basic_string_views character p format cp debug) (it : Int) (n off : Nat) :
    detail.make_iterator b .checked it n off = detail.make_iterator b .unchecked it n off ∧
    detail.make_iterator b .unchecked it n off = .raw (it + off) ∧
    v.begin b = .raw v.data ∧ v.cbegin b = .raw v.data ∧
    v.end_ b = .raw (v.data + v.size) ∧ v.cend b = .raw (v.data + v.size) ∧
    (v.end_ b).difference (v.begin b) = some (v.size : Int) := by
  have hmk : ∀ (tag : debug_policy) (q : Int) (k j : Nat),
      detail.make_iterator b tag q k j = .raw (q + j) := by
    intro tag q k j
    cases tag <;> simp [detail.make_iterator, hno]
  have hb : v.begin b = .raw v.data := by
    unfold basic_string_views.begin
    rw [hmk]
    simp
  have he : v.end_ b = .raw (v.data + v.size) := by
    unfold basic_string_views.end_
    rw [hmk]
  refine ⟨by rw [hmk, hmk], hmk _ _ _ _, hb, ?_, he, ?_, ?_⟩
  · unfold basic_string_views.cbegin
    rw [hmk]
    simp
  · unfold basic_string_views.cend
    rw [hmk]
  · rw [hb, he]
    simp [iterator.difference]

/-- C20 at the checked view of `"hello"` in an LP64 build: `begin()` is the
pointer to `'h'`, `end()` the pointer five elements further. -/
theorem iteration_strategies_coincide_witness :
    hello_view.begin lp64 = .raw 1 ∧ hello_view.end_ lp64 = .raw 6 ∧
    (hello_view.end_ lp64).difference (hello_view.begin lp64) = some 5 :=
  ⟨(iteration_strategies_coincide lp64 rfl hello_view 0 0 0).2.2.1,
   (iteration_strategies_coincide lp64 rfl hello_view 0 0 0).2.2.2.2.1,
   (iteration_strategies_coincide lp64 rfl hello_view 0 0 0).2.2.2.2.2.2⟩

/-! ## The content check during construction -/

theorem len_null {character : Type} [Zero character] [DecidableEq character]
    (b : build) (m : memory character) : detail.len b m 0 = none := by
  simp [detail.len]

theorem of_base_ctor_logged {character : Type} (p : conversion_policy) (format : format_policy)
    (cp : content_policy character) (debug : debug_policy) (m : memory character)
    (begin_ : Int) (size_ : Nat) :
    basic_string_views.of_base_logged p format debug
        (checked_buff_view.ctor_logged cp m begin_ size_) =
      ([(begin_, begin_ + size_)],
        if cp.check m begin_ (begin_ + size_) then .ok ⟨⟨⟨begin_, size_⟩⟩⟩
        else .error .content_violation) := by
  unfold basic_string_views.of_base_logged checked_buff_view.ctor_logged
    basic_string_views.of_base buff_view.data buff_view.size
  by_cases h : cp.check m begin_ (begin_ + size_) = true <;> simp [h]

/-- The logged constructor of the selected declaration returns what the plain
one returns. -/
theorem run_logged_result {character : Type} [Zero character] [DecidableEq character]
    (p : conversion_policy) (format : format_policy) (cp : content_policy character)
    (debug : debug_policy) (b : build) (m : memory character) (c : ctor)
    (a : argument character cp) :
    (c.run_logged p format cp debug b m a).2 = c.run p format cp debug b m a := by
  cases c <;> cases a <;>
    simp only [ctor.run_logged, ctor.run, basic_string_views.from_charp_logged,
      basic_string_views.from_charp, basic_string_views.from_begin_end_logged,
      basic_string_views.from_begin_end, basic_string_views.from_begin_size_logged,
      basic_string_views.from_begin_size, basic_string_views.from_view_logged,
      basic_string_views.from_view, basic_string_views.from_string_logged,
      basic_string_views.from_string, basic_string_views.of_base_logged,
      checked_buff_view.ctor_logged, checked_buff_view.ctor] <;>
    (try split) <;> rfl

/-- The logged construction returns what the plain construction returns. -/
theorem construct_logged_result {character : Type} [Zero character] [DecidableEq character]
    (init : initialization) (p : conversion_policy) (format : format_policy)
    (cp : content_policy character) (debug : debug_policy) (b : build) (m : memory character)
    (a : argument character cp) :
    (construct_logged init p format cp debug b m a).2 = construct init p format cp debug b m a := by
  unfold construct_logged construct
  cases resolve init p format debug a with
  | error e => rfl
  | ok c => exact run_logged_result p format cp debug b m c a

/-- A selected constructor goes one of three ways: it fails before any check
(rejection by the compiler, or the scan leaving the storage), it is the copy
constructor and copies without a check, or it hands one pointer and one length
to the constructor of `checked_buff_view`. -/
theorem run_logged_shape {character : Type} [Zero character] [DecidableEq character]
    (p : conversion_policy) (format : format_policy) (cp : content_policy character)
    (debug : debug_policy) (b : build) (m : memory character) (c : ctor)
    (a : argument character cp) :
    ((c.run_logged p format cp debug b m a).1 = [] ∧
      ∃ e, (c.run_logged p format cp debug b m a).2 = .error e ∧ e ≠ .content_violation) ∨
    (c = .copy ∧ (c.run_logged p format cp debug b m a).1 = [] ∧
      ∃ v, (c.run_logged p format cp debug b m a).2 = .ok v ∧
        a.supplied_pointer = some v.data) ∨
    (∃ begin_ size_, c.run_logged p format cp debug b m a =
        basic_string_views.of_base_logged p format debug
          (checked_buff_view.ctor_logged cp m begin_ size_) ∧
      a.supplied_pointer = some begin_) := by
  cases c <;> cases a <;>
    first
    | exact Or.inl ⟨rfl, _, rfl, by simp⟩
    | exact Or.inr (Or.inl ⟨rfl, rfl, _, rfl, rfl⟩)
    | exact Or.inr (Or.inr ⟨_, _, rfl, rfl⟩)
    | (simp only [ctor.run_logged, basic_string_views.from_charp_logged,
        basic_string_views.from_view_logged, len_null]
       split <;>
        first
        | exact Or.inl ⟨rfl, _, rfl, by simp⟩
        | exact Or.inr (Or.inr ⟨_, _, rfl, rfl⟩))

theorem resolve_error_at_compile_time {character : Type} {cp : content_policy character}
    (init : initialization) (p : conversion_policy) (format : format_policy)
    (debug : debug_policy) (a : argument character cp) (e : failure)
    (h : resolve init p format debug a = .error e) : e ≠ .content_violation := by
  unfold resolve at h
  simp only at h
  split at h
  · cases h
    simp
  · split at h
    · cases h
    · cases h
      simp

/-- A construction goes one of the three ways of `run_logged_shape`. -/
theorem construct_logged_shape {character : Type} [Zero character] [DecidableEq character]
    (init : initialization) (p : conversion_policy) (format : format_policy)
    (cp : content_policy character) (debug : debug_policy) (b : build) (m : memory character)
    (a : argument character cp) :
    ((construct_logged init p format cp debug b m a).1 = [] ∧
      ∃ e, (construct_logged init p format cp debug b m a).2 = .error e ∧
        e ≠ .content_violation) ∨
    (resolve init p format debug a = .ok .copy ∧
      (construct_logged init p format cp debug b m a).1 = [] ∧
      ∃ v, (construct_logged init p format cp debug b m a).2 = .ok v ∧
        a.supplied_pointer = some v.data) ∨
    (∃ (begin_ : Int) (size_ : Nat), construct_logged init p format cp debug b m a =
        ([(begin_, begin_ + size_)],
          if cp.check m begin_ (begin_ + size_) then .ok ⟨⟨⟨begin_, size_⟩⟩⟩
          else .error .content_violation) ∧
      a.supplied_pointer = some begin_) := by
  unfold construct_logged
  cases hr : resolve init p format debug a with
  | error e =>
    exact Or.inl ⟨rfl, e, rfl, resolve_error_at_compile_time init p format debug a e hr⟩
  | ok c =>
    rcases run_logged_shape p format cp debug b m c a with h | ⟨hc, h⟩ | ⟨bg, sz, h, hs⟩
    · exact Or.inl h
    · subst hc
      exact Or.inr (Or.inl ⟨rfl, h⟩)
    · refine Or.inr (Or.inr ⟨bg, sz, ?_, hs⟩)
      simp only
      rw [h, of_base_ctor_logged]

/-- C14 fails for the implicitly declared copy constructor: constructing a view
from a view of the identical type selects it, and it completes without any call
of the content policy's check. -/
theorem copy_construction_without_check :
    resolve .direct .explicit_ .zero_terminated .checked
      (.view hello_view : argument Nat (default_content_policy Nat)) = .ok .copy ∧
    (construct_logged .direct .explicit_ .zero_terminated (default_content_policy Nat)
      .checked lp64 hello (.view hello_view)).1 = [] ∧
    (∃ v, (construct_logged .direct .explicit_ .zero_terminated (default_content_policy Nat)
      .checked lp64 hello (.view hello_view)).2 = .ok v ∧ v.data = 1 ∧ v.size = 5) ∧
    ¬ checked_once (default_content_policy Nat) hello
      (construct_logged .direct .explicit_ .zero_terminated (default_content_policy Nat)
        .checked lp64 hello (.view hello_view)) := by
  have hlog : (construct_logged .direct .explicit_ .zero_terminated
      (default_content_policy Nat) .checked lp64 hello (.view hello_view)).1 = [] := rfl
  refine ⟨rfl, hlog, ⟨_, rfl, rfl, rfl⟩, ?_⟩
  rintro ⟨x, y, h, _⟩
  rw [hlog] at h
  cases h

/-- C14, amended: every construction that overload resolution gives to a
constructor declared in the header (any but the implicitly declared copy
constructor), and that is neither rejected by the compiler nor leaves the
storage during the scan, calls the content policy's check exactly once, on
`[data(), data() + size())` of the view being built, and completes if and only
if that call passes; so does the constructor of `checked_buff_view`; with
`default_content_policy` no construction ends in a content violation. -/
theorem declared_constructor_checks_once {character : Type} [Zero character]
    [DecidableEq character] (init : initialization) (p : conversion_policy)
    (format : format_policy) (cp : content_policy character) (debug : debug_policy)
    (b : build) (m : memory character) (a : argument character cp) (c : ctor)
    (hc : resolve init p format debug a = .ok c) (hcopy : c ≠ .copy)
    (hruns : ∀ e, (construct_logged init p format cp debug b m a).2 = .error e →
      e = .content_violation) :
    checked_once cp m (construct_logged init p format cp debug b m a) ∧
    (∀ (begin_ : Int) (size_ : Nat),
      (checked_buff_view.ctor_logged cp m begin_ size_).1 = [(begin_, begin_ + size_)] ∧
      ((∃ w, (checked_buff_view.ctor_logged cp m begin_ size_).2 = .ok w) ↔
        cp.check m begin_ (begin_ + size_) = true)) ∧
    (∀ a2 : argument character (default_content_policy character),
      construct init p format (default_content_policy character) debug b m a2 ≠
        .error .content_violation) := by
  refine ⟨?_, ?_, ?_⟩
  · rcases construct_logged_shape init p format cp debug b m a with
      ⟨_, e, he, hne⟩ | ⟨hcp, _⟩ | ⟨bg, sz, h, _⟩
    · exact absurd (hruns e he) hne
    · rw [hc] at hcp
      cases hcp
      exact absurd rfl hcopy
    · rw [h]
      refine ⟨bg, bg + sz, rfl, ?_⟩
      by_cases hck : cp.check m bg (bg + sz) = true
      · exact Or.inl ⟨hck, ⟨⟨⟨bg, sz⟩⟩⟩, by simp [hck], rfl, rfl⟩
      · have hf : cp.check m bg (bg + sz) = false := by simpa using hck
        exact Or.inr ⟨hf, by simp [hf]⟩
  · intro begin_ size_
    unfold checked_buff_view.ctor_logged buff_view.data buff_view.size
    refine ⟨rfl, ?_⟩
    by_cases hck : cp.check m begin_ (begin_ + size_) = true <;> simp [hck]
  · intro a2 hcv
    rw [← construct_logged_result] at hcv
    rcases construct_logged_shape init p format (default_content_policy character) debug b m a2
      with ⟨_, e, he, hne⟩ | ⟨_, _, v, hv, _⟩ | ⟨bg, sz, h, _⟩
    · rw [he] at hcv
      cases hcv
      exact hne rfl
    · rw [hv] at hcv
      cases hcv
    · rw [h] at hcv
      simp [default_content_policy] at hcv

/-- C14, amended, at the single-pointer constructor on `"hello"`: one call of
the check, on the range from `'h'` to the terminator. -/
theorem declared_constructor_checks_once_witness :
    checked_once (default_content_policy Nat) hello
      (construct_logged .direct .explicit_ .zero_terminated (default_content_policy Nat)
        .checked lp64 hello (.char_pointer 1)) ∧
    (construct_logged .direct .explicit_ .zero_terminated (default_content_policy Nat)
        .checked lp64 hello (.char_pointer 1)).1 = [(1, 6)] :=
  ⟨(declared_constructor_checks_once .direct .explicit_ .zero_terminated
      (default_content_policy Nat) .checked lp64 hello (.char_pointer 1) .charp_explicit
      rfl (by decide) (fun e he => by cases he)).1, rfl⟩

/-! ## Null pointers and terminators -/

/-- A view that results from a construction refers to the pointer the argument
list supplied. -/
theorem construct_ok_supplied {character : Type} [Zero character] [DecidableEq character]
    (init : initialization) (p : conversion_policy) (format : format_policy)
    (cp : content_policy character) (debug : debug_policy) (b : build) (m : memory character)
    (a : argument character cp) (v : basic_string_views character p format cp debug)
    (h : construct init p format cp debug b m a = .ok v) :
    a.supplied_pointer = some v.data := by
  rw [← construct_logged_result] at h
  rcases construct_logged_shape init p format cp debug b m a with
    ⟨_, e, he, _⟩ | ⟨_, _, w, hw, hs⟩ | ⟨bg, sz, hx, hs⟩
  · rw [he] at h
    cases h
  · rw [hw] at h
    cases h
    exact hs
  · rw [hx] at h
    by_cases hck : cp.check m bg (bg + sz) = true
    · simp only [hck, if_true] at h
      cases h
      exact hs
    · simp [hck] at h

/-- The single-pointer constructor on a sequence whose scan returns `n`. -/
theorem construct_char_pointer_eq {character : Type} [Zero character] [DecidableEq character]
    (p : conversion_policy) (format : format_policy) (cp : content_policy character)
    (debug : debug_policy) (b : build) (m : memory character) (s : Int) (n : Nat)
    (hm : m.addressable b) (hlen : detail.len b m s = some n) :
    construct .direct p format cp debug b m (.char_pointer s) =
      if cp.check m s (s + n) then .ok ⟨⟨⟨s, n⟩⟩⟩ else .error .content_violation := by
  rw [construct_char_pointer]
  unfold basic_string_views.from_charp
  simp only [hlen, to_size_t_natCast b n (len_lt_size b m s n hm hlen)]
  exact of_base_ctor p format cp debug m s n

/-- A view that results from a construction from a view has its source's
pointer and length. -/
theorem construct_view_ok {character : Type} [Zero character] [DecidableEq character]
    (p : conversion_policy) (format : format_policy) (cp : content_policy character)
    (debug : debug_policy) (b : build) (m : memory character)
    {p2 : conversion_policy} {f : format_policy} {d : debug_policy}
    (A : basic_string_views character p2 f cp d)
    (B : basic_string_views character p format cp debug)
    (hB : construct .direct p format cp debug b m (.view A) = .ok B) :
    B.data = A.data ∧ B.size = A.size := by
  rw [construct_view] at hB
  by_cases hsame : p2 = p ∧ f = format ∧ d = debug
  · rw [if_pos hsame] at hB
    cases hB
    exact ⟨rfl, rfl⟩
  · rw [if_neg hsame] at hB
    unfold basic_string_views.from_view at hB
    by_cases hf : f = .zero_terminated ∨ f = format
    · rw [if_pos hf, of_base_ctor] at hB
      by_cases hc : cp.check m A.data (A.data + A.size) = true
      · simp only [hc, if_true] at hB
        cases hB
        exact ⟨rfl, rfl⟩
      · simp [hc] at hB
    · rw [if_neg hf] at hB
      cases hB

/-- C16 fails for a null pointer passed as a value: the (pointer, length)
constructor accepts the null pointer with length 0 and yields a view whose
`data()` is null. -/
theorem null_pointer_value_accepted :
    ∃ v, construct .direct .explicit_ .zero_terminated (default_content_policy Nat) .checked
        lp64 hello (.pointer_and_size 0 0) = .ok v ∧ v.data = 0 ∧ v.size = 0 :=
  ⟨⟨⟨⟨0, 0⟩⟩⟩, rfl, rfl, rfl⟩

/-- C16, amended: a construction from the literal `nullptr` is rejected, and
every view produced by a constructor or by `substring()` has as `data()` the
pointer it was given (the argument pointer, the `begin` pointer, the source
view's `data()`, the object's `c_str()`), so `data()` is not null whenever that
pointer is not null. -/
theorem data_is_supplied_pointer {character : Type} [Zero character] [DecidableEq character]
    (init : initialization) (p : conversion_policy) (format : format_policy)
    (cp : content_policy character) (debug : debug_policy) (b : build) (m : memory character)
    (a : argument character cp) (v : basic_string_views character p format cp debug)
    (h : construct init p format cp debug b m a = .ok v) :
    a.supplied_pointer = some v.data ∧
    ((∀ q, a.supplied_pointer = some q → q ≠ 0) → v.data ≠ 0) ∧
    (∀ w, (v.substring b m).2 = .ok w → w.data = v.data) ∧
    compiles (construct init p format cp debug b m .null_literal) = false := by
  have hs := construct_ok_supplied init p format cp debug b m a v h
  refine ⟨hs, fun hq => hq v.data hs, ?_, ?_⟩
  · intro w hw
    have := construct_ok_supplied .direct p format cp debug b m
      (.pointer_pair v.data (v.data + v.size)) w hw
    simp only [argument.supplied_pointer, Option.some.injEq] at this
    exact this.symm
  · rw [(construct_null_literal init p format cp debug b m).2]
    rfl

/-- C16, amended, at the single-pointer constructor on `"hello"`: the view
refers to the address of `'h'`, which is not null. -/
theorem data_is_supplied_pointer_witness :
    hello_view.data ≠ 0 :=
  (data_is_supplied_pointer .direct .explicit_ .zero_terminated (default_content_policy Nat)
    .checked lp64 hello (.char_pointer 1) hello_view (by rfl)).2.1
      (fun q hq => by
        simp only [argument.supplied_pointer, Option.some.injEq] at hq
        rw [← hq]
        decide)

/-- C17 fails for the (pointer, length) constructor: on `"hello world"` with
length 5 it yields a zero-terminated view (which has `c_str()`) whose element at
offset `size()` is a blank, not the terminator. -/
theorem terminated_view_without_terminator :
    ∃ v, construct .direct .explicit_ .zero_terminated (default_content_policy Nat) .checked
        lp64 hello_world (.pointer_and_size 1 5) = .ok v ∧
      v.c_str = some 1 ∧ hello_world.load (v.data + v.size) = some 32 :=
  ⟨⟨⟨⟨1, 5⟩⟩⟩, rfl, rfl, by decide⟩

/-- C17, amended: a zero-terminated view built by the single-pointer
constructor from a sequence whose first terminator is at an offset
representable in `unsigned long` has the zero element at offset `size()`; a
view built from a view has a terminator at offset `size()` exactly when its
source has one; the (pointer, length), (begin, end) and string-like
constructors store the range they are given unverified, so that the element at
offset `size()` is the one the caller's buffer holds after the range. -/
theorem terminator_after_view {character : Type} [Zero character] [DecidableEq character]
    (init : initialization) (p : conversion_policy) (cp : content_policy character)
    (debug : debug_policy) (b : build) (m : memory character) (hm : m.addressable b) :
    (∀ (s : Int) (k : Nat) (v : basic_string_views character p .zero_terminated cp debug),
      1 ≤ s → m.load (s + k) = some 0 → (∀ i : Nat, i < k → m.load (s + i) ≠ some 0) →
      k < 2 ^ b.unsigned_long_bits →
      construct .direct p .zero_terminated cp debug b m (.char_pointer s) = .ok v →
      m.load (v.data + v.size) = some 0) ∧
    (∀ {p2 : conversion_policy} {f : format_policy} {d : debug_policy}
      (A : basic_string_views character p2 f cp d)
      (B : basic_string_views character p .zero_terminated cp debug),
      construct .direct p .zero_terminated cp debug b m (.view A) = .ok B →
      (m.load (B.data + B.size) = some 0 ↔ m.load (A.data + A.size) = some 0)) ∧
    (∀ (begin_ : Int) (n : Nat) (v : basic_string_views character p .zero_terminated cp debug),
      construct init p .zero_terminated cp debug b m (.pointer_and_size begin_ n) = .ok v →
      (m.load (v.data + v.size) = some 0 ↔ m.load (begin_ + n) = some 0)) ∧
    (∀ (begin_ : Int) (n : Nat) (v : basic_string_views character p .zero_terminated cp debug),
      n < 2 ^ b.size_bits →
      construct init p .zero_terminated cp debug b m (.pointer_pair begin_ (begin_ + n)) = .ok v →
      (m.load (v.data + v.size) = some 0 ↔ m.load (begin_ + n) = some 0)) ∧
    (∀ (s : string_object) (v : basic_string_views character p .zero_terminated cp debug),
      construct .direct p .zero_terminated cp debug b m (.string_like s) = .ok v →
      (m.load (v.data + v.size) = some 0 ↔ m.load (s.c_str + s.size) = some 0)) := by
  have hok : ∀ (r : Except failure (basic_string_views character p .zero_terminated cp debug))
      (q : Int) (n : Nat) (v : basic_string_views character p .zero_terminated cp debug),
      r = (if cp.check m q (q + n) then .ok ⟨⟨⟨q, n⟩⟩⟩ else .error .content_violation) →
      r = .ok v → v.data = q ∧ v.size = n := by
    intro r q n v hr hv
    rw [hr] at hv
    by_cases hc : cp.check m q (q + n) = true
    · simp only [hc, if_true] at hv
      cases hv
      exact ⟨rfl, rfl⟩
    · simp [hc] at hv
  refine ⟨?_, ?_, ?_, ?_, ?_⟩
  · intro s k v hs hz hnz hk hv
    have hlen := len_first_terminator b m s k hs hz hnz hk
    obtain ⟨hd, hsz⟩ := hok _ s k v
      (construct_char_pointer_eq p .zero_terminated cp debug b m s k hm hlen) hv
    rw [hd, hsz]
    exact hz
  · intro p2 f d A B hB
    obtain ⟨hd, hsz⟩ := construct_view_ok p .zero_terminated cp debug b m A B hB
    rw [hd, hsz]
  · intro begin_ n v hv
    obtain ⟨hd, hsz⟩ := hok _ begin_ n v
      (by rw [construct_pointer_and_size]; exact of_base_ctor p _ cp debug m begin_ n) hv
    rw [hd, hsz]
  · intro begin_ n v hn hv
    obtain ⟨hd, hsz⟩ := hok _ begin_ n v
      (by rw [construct_pointer_pair]; exact from_begin_end_eq p _ cp debug b m begin_ n hn) hv
    rw [hd, hsz]
  · intro s v hv
    obtain ⟨hd, hsz⟩ := hok _ s.c_str s.size v
      (by rw [construct_string_like]; exact of_base_ctor p _ cp debug m s.c_str s.size) hv
    rw [hd, hsz]

/-- C17, amended, at the single-pointer constructor on `"hello"`: the element
at offset `size()` of the resulting view is the terminator. -/
theorem terminator_after_view_witness :
    hello.load (hello_view.data + hello_view.size) = some 0 :=
  (terminator_after_view .direct .explicit_ (default_content_policy Nat) .checked lp64 hello
    (by decide)).1 1 5 hello_view (by decide) (by decide) (by decide) (by decide) (by rfl)

/-! ## Checked iterators and conditional explicit -/

/-- C18 at a build that does not advertise checked iterators (an LP64 build
with assertions active): `end()` of the checked view of `"hello"` is the plain
pointer `data() + size()`; dereferencing it reads the terminator and advancing
it gives the next pointer, both without a diagnostic.  In the build that
advertises them the same `end()` is a checked iterator, whose dereference is
diagnosed. -/
theorem checked_end_is_plain_pointer :
    hello_view.end_ lp64 = .raw 6 ∧
    (hello_view.end_ lp64).dereference hello = .value 0 ∧
    (hello_view.end_ lp64).increment = some (.raw 7) ∧
    hello_view.cend lp64 = .raw 6 ∧ hello_view.begin lp64 = .raw 1 ∧
    hello_view.end_ llp64 = .checked_array 1 5 5 ∧
    (hello_view.end_ llp64).dereference hello = .assertion_failure ∧
    (hello_view.end_ llp64).increment = none := by
  refine ⟨by decide, by decide, by decide, by decide, by decide, by decide, by decide,
    by decide⟩

/-- For the single-pointer, the view and the string-like shape exactly one
declaration of the explicit/converting pair is enabled, and the enabled one is
`explicit` exactly under `conversion_policy::explicit_`. -/
theorem conversion_pairs_exclusive (p : conversion_policy) :
    (ctor.enabled p .charp_explicit = !ctor.enabled p .charp_implicit) ∧
    (ctor.enabled p .view_explicit = !ctor.enabled p .view_implicit) ∧
    (ctor.enabled p .string_explicit = !ctor.enabled p .string_implicit) ∧
    (∀ c, c ∈ [ctor.charp_explicit, .charp_implicit, .view_explicit, .view_implicit,
        .string_explicit, .string_implicit] → ctor.enabled p c = true →
      (c.is_explicit = true ↔ p = .explicit_)) := by
  cases p <;> decide

/-- C19 at the explicit conversion policy and the (pointer, length) and (begin,
end) shapes: the only declaration of each shape is enabled but not `explicit`,
so a copy-initialisation from a (pointer, length) or a (begin, end) list is
accepted, while one from a single pointer is rejected. -/
theorem two_argument_constructors_never_explicit :
    ctor.enabled .explicit_ .begin_size = true ∧ ctor.is_explicit .begin_size = false ∧
    ctor.enabled .explicit_ .begin_end = true ∧ ctor.is_explicit .begin_end = false ∧
    resolve .copy .explicit_ .zero_terminated .checked
      (.pointer_and_size 1 5 : argument Nat (default_content_policy Nat)) = .ok .begin_size ∧
    compiles (construct .copy .explicit_ .zero_terminated (default_content_policy Nat)
      .checked lp64 hello (.pointer_and_size 1 5)) = true ∧
    compiles (construct .copy .explicit_ .zero_terminated (default_content_policy Nat)
      .checked lp64 hello (.pointer_pair 1 6)) = true ∧
    compiles (construct .copy .explicit_ .zero_terminated (default_content_policy Nat)
      .checked lp64 hello (.char_pointer 1)) = false := by
  refine ⟨rfl, rfl, rfl, rfl, rfl, rfl, rfl, rfl⟩

end string_views
